import Mathlib

/-!
# task-tracker: the authentication service

A shallow embedding of `internal/auth/service.go` (Register, Login, Refresh,
VerifyToken, generateAccessToken, generateRefreshToken), of the HTTP handlers of
`auth/auth.go` that call it, of the middleware of `middleware/auth2.go`, and of the
task service of `internal/tasks` (GetTasks, CreateTask, GetTask, UpdateTask,
DeleteTask, CreateTaskHandler).

Conventions of the embedding.

* A Go result `(v, err)` is a pair whose last component is `Option Error`
  (`none` is Go's `nil`), so that results such as `("", nil)` stay expressible.
* The database behind `*sql.DB` is an explicit `Store` value that every
  operation takes and returns.
* What the process reads from outside (clock, random sources, I/O failures of
  the database driver) is collected in an `Env` value, one per call.
* The third-party libraries (bcrypt, golang-jwt) are parameters; what the
  theorems need of them is stated as `Bcrypt.Lawful` and `Jwt.Lawful`.
* Logging has no effect on results or on the store and is left out.
-/

namespace TaskTracker

/-! ## Time -/

/-- Instants (Go `time.Time`, as Unix time) and durations (Go `time.Duration`),
both counted in nanoseconds, the unit of `time.Duration` and the resolution of
`time.Now()`. -/
abbrev Time := Int

/-- Go `time.Second`. -/
def Second : Time := 1000000000

/-- Go `time.Minute`. -/
def Minute : Time := 60 * Second

/-- Go `time.Hour`. -/
def Hour : Time := 60 * Minute

/-- Go `t.Before(u)`: t is strictly earlier than u. -/
def Time.Before (t u : Time) : Bool := decide (t < u)

/-- Go `t.Truncate(d)` for a positive d: t rounded down to a multiple of d. (Go counts
the multiples from the zero time, which lies a whole number of seconds before the
Unix epoch, so for d = one second they are the whole Unix seconds.) -/
def Time.Truncate (t d : Time) : Time := t - t % d

/-- The zero value of Go `time.Time` (January 1, year 1, 00:00 UTC) as Unix seconds:
what a variable holds when `Scan` did not write to it. -/
def zeroTime : Time := -62135596800 * Second

/-! ## Errors -/

/-- Go `error` values that reach the service. -/
inductive Error where
  /-- The value `sql.ErrNoRows`: QueryRow found no row. -/
  | ErrNoRows
  /-- Any other error of `database/sql` or of the driver: connection failures,
  constraint violations. -/
  | driver (msg : String)
  /-- The value `bcrypt.ErrMismatchedHashAndPassword`. -/
  | ErrMismatchedHashAndPassword
  /-- Any other error of the bcrypt package. -/
  | bcrypt (msg : String)
  /-- An error of the golang-jwt package (malformed token, bad signature,
  failed claims validation, signing failure). -/
  | jwt (msg : String)
  deriving DecidableEq, Repr

/-! ## Data model -/

/-- Go `models.User` (`models/user.go`), without CreatedAt, which the
authentication code neither reads nor writes. PasswordHash carries the
plaintext password on registration. -/
structure User where
  ID : Int
  Username : String
  PasswordHash : String
  Email : String
  deriving DecidableEq, Repr

/-- The time-valued fields of `jwt.RegisteredClaims`; nil pointers are `none`.
The string-valued registered claims are never set by the service. -/
structure RegisteredClaims where
  ExpiresAt : Option Time
  NotBefore : Option Time
  IssuedAt : Option Time
  deriving DecidableEq, Repr

/-- Go `TokenClaims` (`auth/auth.go`): two private claims and the embedded
`jwt.RegisteredClaims`. -/
structure TokenClaims extends RegisteredClaims where
  UserID : Int
  Username : String
  deriving DecidableEq, Repr

/-- A row of table `users`. -/
structure UserRow where
  id : Int
  username : String
  password_hash : String
  email : String
  deriving DecidableEq, Repr

/-- A row of table `refresh_tokens`. The column `expires_at` holds the instant the
program passes to the insert; its precision belongs to the table declaration, which is
not among the sources. -/
structure RefreshTokenRow where
  user_id : Int
  token : String
  expires_at : Time
  deriving DecidableEq, Repr

/-- Go `models.Task` (`models/task.go`). -/
structure Task where
  ID : Int
  UserID : Int
  Title : String
  Description : String
  Status : String
  Priority : Int
  DueDate : Time
  CreatedAt : Time
  deriving DecidableEq, Repr

/-- A row of table `tasks`. -/
structure TaskRow where
  id : Int
  user_id : Int
  title : String
  description : String
  status : String
  priority : Int
  due_date : Time
  created_at : Time
  deriving DecidableEq, Repr

/-- The state of the database: the two tables the authentication service uses and
the table of the task service. -/
structure Store where
  users : List UserRow
  refresh_tokens : List RefreshTokenRow
  tasks : List TaskRow := []
  deriving DecidableEq, Repr

/-- What one call of a service operation reads from outside the program. -/
structure Env where
  /-- The reading of `time.Now()` during the call. -/
  now : Time
  /-- The string `uuid.New().String()` returns. -/
  uuid : String
  /-- The random bytes bcrypt draws for its salt. -/
  entropy : Nat
  /-- The id the database generates for an inserted `users` row. -/
  newID : Int
  /-- An I/O failure of the k-th database statement of the call (counted from 0):
  `none` when the statement reaches the database and is executed. -/
  dbErr : Nat → Option Error

/-! ## Third-party libraries -/

/-- Package `golang.org/x/crypto/bcrypt`. -/
structure Bcrypt where
  /-- Function `bcrypt.GenerateFromPassword(password, cost)`, with the random salt
  made an argument. -/
  GenerateFromPassword : (password : String) → (cost : Nat) → (entropy : Nat) → String × Option Error
  /-- Function `bcrypt.CompareHashAndPassword(hashedPassword, password)`: nil on a match. -/
  CompareHashAndPassword : (hashedPassword : String) → (password : String) → Option Error

/-- Constant `bcrypt.DefaultCost`. -/
def DefaultCost : Nat := 10

/-- The contract of bcrypt the service relies on: a hash that was generated from a
password is accepted for that password. -/
def Bcrypt.Lawful (bc : Bcrypt) : Prop :=
  ∀ (password : String) (cost entropy : Nat),
    (bc.GenerateFromPassword password cost entropy).2 = none →
    bc.CompareHashAndPassword (bc.GenerateFromPassword password cost entropy).1 password = none

/-- Variable `jwt.TimePrecision`, which the program leaves at its default. -/
def TimePrecision : Time := Second

/-- The dates of the claims are multiples of `jwt.TimePrecision`: the dates a compact
JWT can carry, its NumericDate values being written in that precision. -/
def RegisteredClaims.InPrecision (c : RegisteredClaims) : Prop :=
  (∀ t, c.ExpiresAt = some t → t % TimePrecision = 0) ∧
  (∀ t, c.NotBefore = some t → t % TimePrecision = 0) ∧
  (∀ t, c.IssuedAt = some t → t % TimePrecision = 0)

/-- Package `github.com/golang-jwt/jwt/v4`, as far as it depends on the wire format
and on HMAC-SHA256. -/
structure Jwt where
  /-- The call `jwt.NewWithClaims(jwt.SigningMethodHS256, claims).SignedString(key)`. -/
  SignedString : (key : List UInt8) → (claims : TokenClaims) → String × Option Error
  /-- The part of `jwt.ParseWithClaims` that precedes claims validation: splitting
  and decoding the three segments into a `TokenClaims` and verifying the signature
  with the key the key function returns. -/
  Decode : (tokenString : String) → (key : List UInt8) → Except Error TokenClaims

/-- The contract of golang-jwt the service relies on: signing with HS256 and a
byte-slice key does not fail, a compact JWT is not the empty string, and decoding
a signed string with the key it was signed with gives back the claims, when their
dates are in the precision the wire format carries. -/
structure Jwt.Lawful (jw : Jwt) : Prop where
  sign_ok : ∀ key claims, (jw.SignedString key claims).2 = none
  sign_nonempty : ∀ key claims, (jw.SignedString key claims).1 ≠ ""
  decode_sign : ∀ key (claims : TokenClaims), claims.toRegisteredClaims.InPrecision →
    jw.Decode (jw.SignedString key claims).1 key = Except.ok claims

/-- Function `jwt.NewNumericDate(t)`: a pointer to t truncated to `jwt.TimePrecision`. -/
def NewNumericDate (t : Time) : Option Time := some (Time.Truncate t TimePrecision)

/-- Method `RegisteredClaims.Valid()` of golang-jwt v4, which `TokenClaims` inherits:
with `now` the current time, `exp` (when set) must be after now, and `iat` and `nbf`
(when set) must not be after now. -/
def RegisteredClaims.Valid (c : RegisteredClaims) (now : Time) : Option Error :=
  if (match c.ExpiresAt with | some exp => !(Time.Before now exp) | none => false) then
    some (Error.jwt "token is expired")
  else if (match c.IssuedAt with | some iat => Time.Before now iat | none => false) then
    some (Error.jwt "token used before issued")
  else if (match c.NotBefore with | some nbf => Time.Before now nbf | none => false) then
    some (Error.jwt "token is not valid yet")
  else none

/-- Go `jwt.Token`: the fields the service reads. -/
structure Token where
  Claims : TokenClaims
  Valid : Bool
  deriving DecidableEq, Repr

/-- Function `jwt.ParseWithClaims(tokenString, &TokenClaims{}, keyFunc)` with a key
function that returns `key`: the token is marked Valid exactly when no error is
returned. -/
def Jwt.ParseWithClaims (jw : Jwt) (now : Time) (tokenString : String) (key : List UInt8) :
    Token × Option Error :=
  match jw.Decode tokenString key with
  | Except.error e =>
    ({ Claims := { ExpiresAt := none, NotBefore := none, IssuedAt := none, UserID := 0, Username := "" },
       Valid := false }, some e)
  | Except.ok claims =>
    match claims.toRegisteredClaims.Valid now with
    | some e => ({ Claims := claims, Valid := false }, some e)
    | none => ({ Claims := claims, Valid := true }, none)

/-! ## The store -/

/-- Statement `SELECT id, username, password_hash FROM users WHERE username = $1`
through `QueryRow(...).Scan`: the first matching row, `sql.ErrNoRows` when there
is none. -/
def Store.queryUserByUsername (db : Store) (ioErr : Option Error) (username : String) :
    Except Error UserRow :=
  match ioErr with
  | some e => Except.error e
  | none =>
    match db.users.find? (fun u => u.username == username) with
    | some u => Except.ok u
    | none => Except.error Error.ErrNoRows

/-- Statement `SELECT username FROM users WHERE id = $1` through `QueryRow(...).Scan`. -/
def Store.queryUsernameByID (db : Store) (ioErr : Option Error) (userID : Int) :
    Except Error String :=
  match ioErr with
  | some e => Except.error e
  | none =>
    match db.users.find? (fun u => u.id == userID) with
    | some u => Except.ok u.username
    | none => Except.error Error.ErrNoRows

/-- Statement `SELECT user_id, expires_at FROM refresh_tokens WHERE token = $1`
through `QueryRow(...).Scan`. -/
def Store.queryRefreshToken (db : Store) (ioErr : Option Error) (token : String) :
    Except Error RefreshTokenRow :=
  match ioErr with
  | some e => Except.error e
  | none =>
    match db.refresh_tokens.find? (fun r => r.token == token) with
    | some r => Except.ok r
    | none => Except.error Error.ErrNoRows

/-- Modelled from the spec: the declaration of table `users`, which is not among the
sources; the spec gives `users(id, username UNIQUE, password_hash, email, created_at)`
with the id generated by the store. Statement
`INSERT INTO users (username, password_hash, email) VALUES ($1, $2, $3) RETURNING id`:
refused when the username is taken, otherwise the row is added under the id the
database generates. -/
def Store.insertUser (db : Store) (ioErr : Option Error) (newID : Int)
    (username password_hash email : String) : Except Error Int × Store :=
  match ioErr with
  | some e => (Except.error e, db)
  | none =>
    if db.users.any (fun u => u.username == username) then
      (Except.error (Error.driver "duplicate key value violates unique constraint"), db)
    else
      (Except.ok newID,
        { db with users := db.users ++ [{ id := newID, username := username,
                                          password_hash := password_hash, email := email }] })

/-- Modelled from the spec: the declaration of table `refresh_tokens`, which is not
among the sources; the spec gives `refresh_tokens(token UNIQUE, user_id, expires_at)`.
Statement `INSERT INTO refresh_tokens (user_id, token, expires_at) VALUES ($1, $2, $3)`. -/
def Store.insertRefreshToken (db : Store) (ioErr : Option Error) (row : RefreshTokenRow) :
    Option Error × Store :=
  match ioErr with
  | some e => (some e, db)
  | none =>
    if db.refresh_tokens.any (fun r => r.token == row.token) then
      (some (Error.driver "duplicate key value violates unique constraint"), db)
    else
      (none, { db with refresh_tokens := db.refresh_tokens ++ [row] })

/-! ## The service (`internal/auth/service.go`) -/

/-- Go `Service`: the JWT secret; the database handle is the `Store` argument of
each method. -/
structure Service where
  secret : List UInt8

/-- Method `Service.Register`. -/
def Service.Register (_s : Service) (bc : Bcrypt) (env : Env) (db : Store) (user : User) :
    (Int × Option Error) × Store :=
  match bc.GenerateFromPassword user.PasswordHash DefaultCost env.entropy with
  | (_, some err) => ((0, some err), db)
  | (hash, none) =>
    match db.insertUser (env.dbErr 0) env.newID user.Username hash user.Email with
    | (Except.error err, db') => ((0, some err), db')
    | (Except.ok userID, db') => ((userID, none), db')

/-- Method `Service.generateAccessToken`. -/
def Service.generateAccessToken (s : Service) (jw : Jwt) (env : Env) (userID : Int)
    (username : String) : String × Option Error :=
  let claims : TokenClaims :=
    { UserID := userID
      Username := username
      ExpiresAt := NewNumericDate (env.now + 15 * Minute)
      IssuedAt := NewNumericDate env.now
      NotBefore := none }
  jw.SignedString s.secret claims

/-- Method `Service.generateRefreshToken`; the insert is the statement number
`stmt` of the calling operation. -/
def Service.generateRefreshToken (_s : Service) (env : Env) (stmt : Nat) (db : Store)
    (userID : Int) : (String × Option Error) × Store :=
  let token := env.uuid
  let expiresAt := env.now + 7 * 24 * Hour
  match db.insertRefreshToken (env.dbErr stmt)
      { user_id := userID, token := token, expires_at := expiresAt } with
  | (some err, db') => (("", some err), db')
  | (none, db') => ((token, none), db')

/-- Method `Service.Login`. -/
def Service.Login (s : Service) (bc : Bcrypt) (jw : Jwt) (env : Env) (db : Store)
    (username password : String) : (String × String × Option Error) × Store :=
  match db.queryUserByUsername (env.dbErr 0) username with
  | Except.error err => (("", "", some err), db)
  | Except.ok user =>
    match bc.CompareHashAndPassword user.password_hash password with
    | some err => (("", "", some err), db)
    | none =>
      match s.generateAccessToken jw env user.id user.username with
      | (_, some err) => (("", "", some err), db)
      | (accessToken, none) =>
        match s.generateRefreshToken env 1 db user.id with
        | ((_, some err), db') => (("", "", some err), db')
        | ((refreshToken, none), db') => ((accessToken, refreshToken, none), db')

/-- Method `Service.Refresh`. When `Scan` fails, userID and expiresAt keep their zero
values; the guard is `err != nil || expiresAt.Before(time.Now())` and its branch
returns `"", err`. -/
def Service.Refresh (s : Service) (jw : Jwt) (env : Env) (db : Store) (refreshToken : String) :
    (String × Option Error) × Store :=
  let scanned : Int × Time × Option Error :=
    match db.queryRefreshToken (env.dbErr 0) refreshToken with
    | Except.ok row => (row.user_id, row.expires_at, none)
    | Except.error e => (0, zeroTime, some e)
  let userID := scanned.1
  let expiresAt := scanned.2.1
  let err := scanned.2.2
  if err.isSome || Time.Before expiresAt env.now then
    (("", err), db)
  else
    match db.queryUsernameByID (env.dbErr 1) userID with
    | Except.error err => (("", some err), db)
    | Except.ok username =>
      match s.generateAccessToken jw env userID username with
      | (_, some err) => (("", some err), db)
      | (accessToken, none) => ((accessToken, none), db)

/-- Method `Service.VerifyToken`. The type assertion on `token.Claims` cannot fail,
the claims object being the `*TokenClaims` handed to the parser. -/
def Service.VerifyToken (s : Service) (jw : Jwt) (env : Env) (tokenString : String) :
    Option TokenClaims × Option Error :=
  match jw.ParseWithClaims env.now tokenString s.secret with
  | (token, err) =>
    if err.isSome || !token.Valid then (none, err)
    else (some token.Claims, none)

/-! ## The HTTP handlers (`auth/auth.go`) -/

/-- The JSON object a handler writes with `c.JSON`. -/
inductive Body where
  /-- The object `gin.H{"error": msg}` with a fixed message. -/
  | error (msg : String)
  /-- The object `gin.H{"error": err.Error()}` for the validator error that names
  these fields. -/
  | validationError (fields : List String)
  /-- The object `gin.H{"message": "User registered", "user_id": userID}`. -/
  | registered (user_id : Int)
  /-- The object `gin.H{"access_token": a, "refresh_token": r}`. -/
  | tokens (access_token refresh_token : String)
  /-- The object `gin.H{"access_token": a}`. -/
  | accessToken (access_token : String)
  /-- The object `gin.H{"message": "Task created", "task_id": taskID}`. -/
  | taskCreated (task_id : Int)
  deriving DecidableEq, Repr

/-- An HTTP response: status code and JSON body. -/
structure Response where
  status : Nat
  body : Body
  deriving DecidableEq, Repr

def StatusOK : Nat := 200
def StatusCreated : Nat := 201
def StatusBadRequest : Nat := 400
def StatusUnauthorized : Nat := 401
def StatusInternalServerError : Nat := 500

/-- The fields, among the given (name, value) pairs tagged `validate:"required"`,
that fail the tag: a string fails it when it is empty. -/
def requiredFailures (fields : List (String × String)) : List String :=
  (fields.filter (fun f => f.2 == "")).map (fun f => f.1)

/-- Function `LoginHandler`. The argument `input` is the outcome of
`c.ShouldBindJSON(&input)`: `none` when binding fails, otherwise the username and
the password. -/
def LoginHandler (s : Service) (bc : Bcrypt) (jw : Jwt) (env : Env) (db : Store)
    (input : Option (String × String)) : Response × Store :=
  match input with
  | none => ({ status := StatusBadRequest, body := Body.error "Invalid request" }, db)
  | some (username, password) =>
    match requiredFailures [("Username", username), ("Password", password)] with
    | f :: fs => ({ status := StatusBadRequest, body := Body.validationError (f :: fs) }, db)
    | [] =>
      match s.Login bc jw env db username password with
      | ((_, _, some _), db') =>
        ({ status := StatusUnauthorized, body := Body.error "Invalid credentials" }, db')
      | ((accessToken, refreshToken, none), db') =>
        ({ status := StatusOK, body := Body.tokens accessToken refreshToken }, db')

/-- Function `RefreshHandler`. The argument `input` is the outcome of
`c.ShouldBindJSON(&input)`: `none` when binding fails, otherwise the refresh token. -/
def RefreshHandler (s : Service) (jw : Jwt) (env : Env) (db : Store)
    (input : Option String) : Response × Store :=
  match input with
  | none => ({ status := StatusBadRequest, body := Body.error "Invalid request" }, db)
  | some refreshToken =>
    match requiredFailures [("RefreshToken", refreshToken)] with
    | f :: fs => ({ status := StatusBadRequest, body := Body.validationError (f :: fs) }, db)
    | [] =>
      match s.Refresh jw env db refreshToken with
      | ((_, some _), db') =>
        ({ status := StatusUnauthorized, body := Body.error "Invalid or expired refresh token" }, db')
      | ((accessToken, none), db') =>
        ({ status := StatusOK, body := Body.accessToken accessToken }, db')

/-- Package `github.com/go-playground/validator/v10`: the rule behind the tag
`email`, which decides whether a non-empty string is an address. -/
structure Validator where
  email : String → Bool

/-- The call `validate.Struct(&user)` for `models.User`: the fields that fail their
tags, in the order of the struct. Username and PasswordHash are tagged `required`,
Email is tagged `required,email`; ID and CreatedAt carry no tag. An empty slice is
a nil error. -/
def validateUser (v : Validator) (user : User) : List String :=
  requiredFailures [("Username", user.Username), ("PasswordHash", user.PasswordHash)] ++
    (if user.Email == "" || !v.email user.Email then ["Email"] else [])

/-- Function `RegisterHandler`. The argument `input` is the outcome of
`c.ShouldBindJSON(&user)`: `none` when binding fails, otherwise the user read from
the body. -/
def RegisterHandler (s : Service) (bc : Bcrypt) (v : Validator) (env : Env) (db : Store)
    (input : Option User) : Response × Store :=
  match input with
  | none => ({ status := StatusBadRequest, body := Body.error "Invalid request" }, db)
  | some user =>
    match validateUser v user with
    | f :: fs => ({ status := StatusBadRequest, body := Body.validationError (f :: fs) }, db)
    | [] =>
      match s.Register bc env db user with
      | ((_, some _), db') =>
        ({ status := StatusInternalServerError, body := Body.error "Failed to register user" }, db')
      | ((userID, none), db') =>
        ({ status := StatusCreated, body := Body.registered userID }, db')

/-! ## The authentication middleware (`middleware/auth2.go`) -/

/-- A value stored in the keys of a `gin.Context`. -/
inductive Value where
  | int (i : Int)
  | str (s : String)
  deriving DecidableEq, Repr

/-- Go `gin.Context`, as far as the middleware and the handlers use it: the request
headers under their canonical names, the keys set with `c.Set` (the first entry for
a key is the current one), the response written with `c.JSON`, and whether `c.Abort`
was called. -/
structure Context where
  Header : List (String × String)
  Keys : List (String × Value)
  written : Option Response
  aborted : Bool
  deriving DecidableEq, Repr

/-- Method `c.GetHeader(key)`: the value of the header, the empty string when the
request has none. -/
def Context.GetHeader (c : Context) (key : String) : String :=
  (c.Header.lookup key).getD ""

/-- Method `c.Set(key, value)`. -/
def Context.Set (c : Context) (key : String) (value : Value) : Context :=
  { c with Keys := (key, value) :: c.Keys }

/-- Method `c.Get(key)`. -/
def Context.Get (c : Context) (key : String) : Option Value :=
  c.Keys.lookup key

/-- Method `c.JSON(code, obj)`. -/
def Context.JSON (c : Context) (code : Nat) (obj : Body) : Context :=
  { c with written := some { status := code, body := obj } }

/-- Method `c.Abort()`: the handlers that follow in the chain are not run. -/
def Context.Abort (c : Context) : Context :=
  { c with aborted := true }

/-- Go `strings.HasPrefix(s, p)`. -/
def HasPrefix (s p : String) : Bool := p.data.isPrefixOf s.data

/-- Go `strings.TrimPrefix(s, p)`. -/
def TrimPrefix (s p : String) : String :=
  if HasPrefix s p then String.mk (s.data.drop p.data.length) else s

/-- Function `AuthMiddleware`. The argument `next` is what `c.Next()` does: it runs
the handlers that follow in the chain. The result `none` stands for the panic of
dereferencing a nil claims pointer. -/
def AuthMiddleware (s : Service) (jw : Jwt) (env : Env) (next : Context → Context)
    (c : Context) : Option Context :=
  let tokenString := c.GetHeader "Authorization"
  if tokenString == "" then
    some ((c.JSON 401 (Body.error "Authorization header required")).Abort)
  else
    let tokenString :=
      if HasPrefix tokenString "Bearer " then TrimPrefix tokenString "Bearer " else tokenString
    match s.VerifyToken jw env tokenString with
    | (_, some _) => some ((c.JSON 401 (Body.error "Invalid token")).Abort)
    | (some claims, none) =>
      some (next ((c.Set "user_id" (Value.int claims.UserID)).Set "username"
        (Value.str claims.Username)))
    | (none, none) => none

/-! ## The task service (`internal/tasks/service.go`, `internal/tasks/tasks.go`) -/

/-- What one call of a task operation, which runs one statement, reads from outside
the program. -/
structure TaskEnv where
  /-- An error with which the statement is refused before it reads or changes
  anything (an I/O failure of the driver): `none` when it is executed. -/
  ioErr : Option Error
  /-- How the database reads the text parameter given for the integer column `id`;
  `none` when the text is not an integer. -/
  parseID : String → Option Int
  /-- An error of `Scan` on a row (a NULL in a column scanned into a Go string, int
  or time): `none` when the row is scanned. -/
  scanErr : TaskRow → Option Error
  /-- The id the database generates for an inserted row. -/
  newID : Int
  /-- The created_at the database gives to an inserted row. -/
  createdAt : Time

/-- The columns of a row as `Scan` writes them into a `models.Task`. -/
def TaskRow.scan (r : TaskRow) : Task :=
  { ID := r.id, UserID := r.user_id, Title := r.title, Description := r.description,
    Status := r.status, Priority := r.priority, DueDate := r.due_date,
    CreatedAt := r.created_at }

/-- Go `tasks.Service`: a database handle and a logger, neither of which is a value
of the embedding. -/
structure Tasks.Service where
  deriving DecidableEq, Repr

/-- Method `Service.GetTasks`: the rows with `user_id = $1`; a row on which `Scan`
fails is skipped. -/
def Tasks.Service.GetTasks (_s : Tasks.Service) (env : TaskEnv) (db : Store) (userID : Int) :
    (List Task × Option Error) × Store :=
  match env.ioErr with
  | some err => (([], some err), db)
  | none =>
    let rows := db.tasks.filter (fun r => r.user_id == userID)
    ((rows.filterMap (fun r =>
        match env.scanErr r with
        | some _ => none
        | none => some r.scan), none), db)

/-- Method `Service.CreateTask`. -/
def Tasks.Service.CreateTask (_s : Tasks.Service) (env : TaskEnv) (db : Store) (task : Task) :
    (Int × Option Error) × Store :=
  match env.ioErr with
  | some err => ((0, some err), db)
  | none =>
    ((env.newID, none),
      { db with tasks := db.tasks ++
          [{ id := env.newID, user_id := task.UserID, title := task.Title,
             description := task.Description, status := task.Status,
             priority := task.Priority, due_date := task.DueDate,
             created_at := env.createdAt }] })

/-- Method `Service.GetTask`: the first row with `id = $1 AND user_id = $2`. -/
def Tasks.Service.GetTask (_s : Tasks.Service) (env : TaskEnv) (db : Store) (taskID : String)
    (userID : Int) : (Option Task × Option Error) × Store :=
  match env.ioErr with
  | some err => ((none, some err), db)
  | none =>
    match env.parseID taskID with
    | none => ((none, some (Error.driver "invalid input syntax for type integer")), db)
    | some id =>
      match db.tasks.find? (fun r => r.id == id && r.user_id == userID) with
      | none => ((none, some Error.ErrNoRows), db)
      | some r =>
        match env.scanErr r with
        | some err => ((none, some err), db)
        | none => ((some r.scan, none), db)

/-- Method `Service.UpdateTask`: the statement rewrites five columns of the rows with
`id = $6 AND user_id = $7`; `rowsAffected` is the number of those rows. -/
def Tasks.Service.UpdateTask (_s : Tasks.Service) (env : TaskEnv) (db : Store) (task : Task)
    (taskID : String) (userID : Int) : Option Error × Store :=
  match env.ioErr with
  | some err => (some err, db)
  | none =>
    match env.parseID taskID with
    | none => (some (Error.driver "invalid input syntax for type integer"), db)
    | some id =>
      let db' : Store :=
        { db with tasks := db.tasks.map (fun r =>
            if r.id == id && r.user_id == userID then
              { r with title := task.Title, description := task.Description,
                       status := task.Status, priority := task.Priority,
                       due_date := task.DueDate }
            else r) }
      let rowsAffected := (db.tasks.filter (fun r => r.id == id && r.user_id == userID)).length
      if rowsAffected == 0 then (some Error.ErrNoRows, db')
      else (none, db')

/-- Method `Service.DeleteTask`: the statement removes the rows with
`id = $1 AND user_id = $2`; `rowsAffected` is the number of those rows. -/
def Tasks.Service.DeleteTask (_s : Tasks.Service) (env : TaskEnv) (db : Store)
    (taskID : String) (userID : Int) : Option Error × Store :=
  match env.ioErr with
  | some err => (some err, db)
  | none =>
    match env.parseID taskID with
    | none => (some (Error.driver "invalid input syntax for type integer"), db)
    | some id =>
      let db' : Store :=
        { db with tasks := db.tasks.filter (fun r => !(r.id == id && r.user_id == userID)) }
      let rowsAffected := (db.tasks.filter (fun r => r.id == id && r.user_id == userID)).length
      if rowsAffected == 0 then (some Error.ErrNoRows, db')
      else (none, db')

/-- The call `validate.Struct(&task)` for `models.Task`: the fields that fail their
tags, in the order of the struct. Title is tagged `required`, Status is tagged
`required,oneof=pending done in_progress`, Priority is tagged `gte=1`. -/
def validateTask (task : Task) : List String :=
  (if task.Title == "" then ["Title"] else []) ++
  (if task.Status == "" || !(["pending", "done", "in_progress"].contains task.Status) then
    ["Status"] else []) ++
  (if task.Priority < 1 then ["Priority"] else [])

/-- Function `CreateTaskHandler`. The argument `input` is the outcome of
`c.ShouldBindJSON(&task)`: `none` when binding fails, otherwise the task read from
the body, its `user_id` included. The result `none` stands for the panic of the type
assertion `userID.(int)` on a missing or non-integer key. -/
def CreateTaskHandler (s : Tasks.Service) (env : TaskEnv) (db : Store) (c : Context)
    (input : Option Task) : Option (Response × Store) :=
  match input with
  | none => some ({ status := StatusBadRequest, body := Body.error "Invalid request" }, db)
  | some task =>
    match validateTask task with
    | f :: fs =>
      some ({ status := StatusBadRequest, body := Body.validationError (f :: fs) }, db)
    | [] =>
      match c.Get "user_id" with
      | some (Value.int userID) =>
        match s.CreateTask env db { task with UserID := userID } with
        | ((_, some _), db') =>
          some ({ status := StatusInternalServerError,
                  body := Body.error "Failed to create task" }, db')
        | ((taskID, none), db') =>
          some ({ status := StatusCreated, body := Body.taskCreated taskID }, db')
      | _ => none

/-! ## Reachable stores -/

/-- The stores that calls of Register reach from a store without users. -/
inductive Reachable (s : Service) (bc : Bcrypt) : Store → Prop where
  | init (db : Store) (h : db.users = []) : Reachable s bc db
  | register (db : Store) (env : Env) (user : User) (h : Reachable s bc db) :
      Reachable s bc (s.Register bc env db user).2

/-! ## Stand-ins for the libraries

Concrete values of `Bcrypt` and `Jwt` at which the theorems are instantiated. They
are not the real algorithms: they only have the shape of the libraries' results. -/

/-- A stand-in for bcrypt. Like `bcrypt.GenerateFromPassword` it refuses a password
of more than 72 bytes; the hash keeps the password readable, which is enough for
comparing. -/
def demoBcrypt : Bcrypt where
  GenerateFromPassword password _cost _entropy :=
    if 72 < password.utf8ByteSize then
      ("", some (Error.bcrypt "bcrypt: password length exceeds 72 bytes"))
    else ("$2a$10$" ++ password, none)
  CompareHashAndPassword hashedPassword password :=
    if hashedPassword = "$2a$10$" ++ password then none
    else some Error.ErrMismatchedHashAndPassword

/-- The binary digits of n, the lowest first; `fuel` bounds their number, and n
itself is always enough. -/
def demoBits : Nat → Nat → List Char
  | 0, _ => []
  | fuel + 1, n =>
    if n = 0 then [] else (if n % 2 = 1 then '1' else '0') :: demoBits fuel (n / 2)

/-- Reads binary digits, the lowest first, up to the first character that is not a
digit: the number read and the rest of the input. -/
def demoUnbits : List Char → Nat × List Char
  | [] => (0, [])
  | c :: tl =>
    if c = '0' then (2 * (demoUnbits tl).1, (demoUnbits tl).2)
    else if c = '1' then (2 * (demoUnbits tl).1 + 1, (demoUnbits tl).2)
    else (0, c :: tl)

/-- Stand-in wire form of an integer: a sign, the magnitude in binary, a full stop. -/
def demoEncInt (i : Int) : List Char :=
  (if i < 0 then '-' else '+') :: (demoBits i.natAbs i.natAbs ++ ['.'])

/-- Reads back what `demoEncInt` wrote and returns the rest of the input. -/
def demoDecInt : List Char → Option (Int × List Char)
  | [] => none
  | sign :: rest =>
    match (demoUnbits rest).2 with
    | '.' :: tl =>
      let n : Int := ((demoUnbits rest).1 : Nat)
      some (if sign == '-' then -n else n, tl)
    | _ => none

/-- Stand-in wire form of an optional instant. -/
def demoEncOpt : Option Time → List Char
  | none => ['n']
  | some t => 's' :: demoEncInt t

/-- Reads back what `demoEncOpt` wrote and returns the rest of the input. -/
def demoDecOpt : List Char → Option (Option Time × List Char)
  | 'n' :: tl => some (none, tl)
  | 's' :: tl =>
    match demoDecInt tl with
    | some (t, rest) => some (some t, rest)
    | none => none
  | _ => none

/-- Stand-in wire form of the claims; the username comes last. -/
def demoEncClaims (c : TokenClaims) : List Char :=
  demoEncOpt c.ExpiresAt ++ (demoEncOpt c.NotBefore ++ (demoEncOpt c.IssuedAt ++
    (demoEncInt c.UserID ++ c.Username.data)))

/-- Reads back what `demoEncClaims` wrote. -/
def demoDecClaims (l : List Char) : Option TokenClaims :=
  match demoDecOpt l with
  | none => none
  | some (exp, l1) =>
    match demoDecOpt l1 with
    | none => none
    | some (nbf, l2) =>
      match demoDecOpt l2 with
      | none => none
      | some (iat, l3) =>
        match demoDecInt l3 with
        | none => none
        | some (uid, l4) =>
          some { ExpiresAt := exp, NotBefore := nbf, IssuedAt := iat, UserID := uid,
                 Username := String.mk l4 }

/-- A stand-in for golang-jwt: the token is the letter J followed by the claims in
the wire form above. No signature is computed and the key is ignored. -/
def demoJwt : Jwt where
  SignedString _key claims := (String.mk ('J' :: demoEncClaims claims), none)
  Decode tokenString _key :=
    match tokenString.data with
    | 'J' :: rest =>
      match demoDecClaims rest with
      | some c => Except.ok c
      | none => Except.error (Error.jwt "token is malformed")
    | _ => Except.error (Error.jwt "token is malformed")

/-- An environment in which no database statement fails at the driver. -/
def demoEnv (now : Time) (uuid : String) : Env :=
  { now := now, uuid := uuid, entropy := 0, newID := 1, dbErr := fun _ => none }

/-- A service with a three-byte secret. -/
def demoService : Service := { secret := [1, 2, 3] }

/-- A store with one user, alice, whose password is "s3cret", and one refresh
token of hers that expires at instant 1000. -/
def demoStore : Store :=
  { users := [{ id := 1, username := "alice", password_hash := "$2a$10$s3cret",
                email := "alice@x.com" }]
    refresh_tokens := [{ user_id := 1, token := "rt-1", expires_at := 1000 }] }

/-- A stand-in for the `email` rule of the validator: the string contains an
at sign. -/
def demoValidator : Validator where
  email e := e.data.contains '@'

/-- A request context that carries the given Authorization header and no keys. -/
def demoContext (authorization : String) : Context :=
  { Header := [("Authorization", authorization)], Keys := [], written := none,
    aborted := false }

/-- An environment for a task operation in which the statement is executed, the
texts "1" and "2" are read as integers and every row is scanned. -/
def demoTaskEnv : TaskEnv :=
  { ioErr := none
    parseID := fun t => if t = "1" then some 1 else if t = "2" then some 2 else none
    scanErr := fun _ => none
    newID := 3
    createdAt := 0 }

/-- A store with two tasks: task 1 belongs to user 1 and task 2 to user 2. -/
def demoTaskStore : Store :=
  { users := []
    refresh_tokens := []
    tasks :=
      [{ id := 1, user_id := 1, title := "write", description := "", status := "pending",
         priority := 1, due_date := 0, created_at := 0 },
       { id := 2, user_id := 2, title := "read", description := "", status := "done",
         priority := 2, due_date := 0, created_at := 0 }] }

/-- A task as a request body carries it, naming user 2 as its owner. -/
def demoTask : Task :=
  { ID := 0, UserID := 2, Title := "plan", Description := "", Status := "pending",
    Priority := 1, DueDate := 0, CreatedAt := 0 }

/-- A store without rows. -/
def demoEmptyStore : Store := { users := [], refresh_tokens := [] }

/-- An environment in which every database statement fails at the driver. -/
def demoDownEnv : Env :=
  { now := 0, uuid := "u-0", entropy := 0, newID := 1,
    dbErr := fun _ => some (Error.driver "connection refused") }

/-- A registration of carol with a password of 73 bytes. -/
def demoLongUser : User :=
  { ID := 0, Username := "carol", Email := "carol@x.com",
    PasswordHash := "aaaaaaaaaaaaaaaaaaaaaaaaaaaaaaaaaaaaaaaaaaaaaaaaaaaaaaaaaaaaaaaaaaaaaaaaa" }

/-- A registration of carol with the password "pa55word". -/
def demoCarol : User :=
  { ID := 0, Username := "carol", PasswordHash := "pa55word", Email := "carol@x.com" }

/-- A store with two users, alice (id 1) and bob (id 2), each with one refresh
token that expires at instant 1000. -/
def demoTwoUserStore : Store :=
  { users := [{ id := 1, username := "alice", password_hash := "$2a$10$s3cret",
                email := "alice@x.com" },
              { id := 2, username := "bob", password_hash := "$2a$10$hunter2",
                email := "bob@x.com" }]
    refresh_tokens := [{ user_id := 1, token := "rt-1", expires_at := 1000 },
                       { user_id := 2, token := "rt-2", expires_at := 1000 }] }

/-- A handler that follows the middleware in the chain: it answers 201. -/
def demoDownstream (c : Context) : Context :=
  c.JSON StatusCreated (Body.taskCreated 3)

/-! ## Lemmas on the stand-ins -/

theorem demoBcrypt_lawful : demoBcrypt.Lawful := by
  intro password cost entropy h
  simp only [demoBcrypt] at h ⊢
  by_cases hlen : 72 < password.utf8ByteSize
  · simp [hlen] at h
  · simp [hlen]

theorem demoUnbits_stop (tl : List Char) : demoUnbits ('.' :: tl) = (0, '.' :: tl) := by
  have h0 : ¬ ('.' = '0') := by decide
  have h1 : ¬ ('.' = '1') := by decide
  simp [demoUnbits, h0, h1]

theorem demoUnbits_bits (fuel : Nat) : ∀ (n : Nat), n ≤ fuel → ∀ (tl : List Char),
    demoUnbits (demoBits fuel n ++ '.' :: tl) = (n, '.' :: tl) := by
  induction fuel with
  | zero =>
    intro n hn tl
    have h0 : n = 0 := by omega
    subst h0
    simpa [demoBits] using demoUnbits_stop tl
  | succ k ih =>
    intro n hn tl
    by_cases h0 : n = 0
    · subst h0
      simpa [demoBits] using demoUnbits_stop tl
    · have hk : n / 2 ≤ k := by omega
      have h10 : ¬ ('1' = '0') := by decide
      by_cases hodd : n % 2 = 1
      · simp only [demoBits, h0, hodd, if_true, if_false, List.cons_append, demoUnbits, h10,
          ih (n / 2) hk tl]
        congr 1
        omega
      · simp only [demoBits, h0, hodd, if_true, if_false, List.cons_append, demoUnbits,
          ih (n / 2) hk tl]
        congr 1
        omega

theorem demoDecInt_enc (i : Int) (tl : List Char) :
    demoDecInt (demoEncInt i ++ tl) = some (i, tl) := by
  have hb := demoUnbits_bits i.natAbs i.natAbs le_rfl tl
  unfold demoEncInt
  simp only [List.cons_append, List.append_assoc, List.singleton_append, List.nil_append,
    demoDecInt]
  rw [hb]
  by_cases h : i < 0
  · simp [h, abs_of_neg h]
  · simp [h, abs_of_nonneg (not_lt.mp h)]

theorem demoDecOpt_enc (t : Option Time) (tl : List Char) :
    demoDecOpt (demoEncOpt t ++ tl) = some (t, tl) := by
  cases t with
  | none => simp [demoEncOpt, demoDecOpt]
  | some v => simp [demoEncOpt, demoDecOpt, demoDecInt_enc]

theorem demoDecClaims_enc (c : TokenClaims) : demoDecClaims (demoEncClaims c) = some c := by
  simp [demoDecClaims, demoEncClaims, demoDecOpt_enc, demoDecInt_enc]

theorem demoJwt_lawful : demoJwt.Lawful where
  sign_ok := by intro key claims; rfl
  sign_nonempty := by
    intro key claims h
    have := congrArg String.data h
    simp [demoJwt] at this
  decode_sign := by
    intro key claims _
    simp [demoJwt, demoDecClaims_enc]

/-! ## C1: an expired refresh token -/

/-- C1 (the code departs from the claim). The refresh token "rt-1" is in the store with
expires_at = 1000 and the call is made at instant 2000, no statement failing. The guard
of Refresh is taken, but the error it returns is the nil error of the successful Scan:
the result is the empty string with a nil error, and RefreshHandler answers 200 with an
empty access_token. A token that is absent from the store gets `sql.ErrNoRows` and 401. -/
theorem Refresh_expired_token_nil_error :
    (demoService.Refresh demoJwt (demoEnv 2000 "u-1") demoStore "rt-1").1 = ("", none) ∧
    (RefreshHandler demoService demoJwt (demoEnv 2000 "u-1") demoStore (some "rt-1")).1 =
      { status := 200, body := Body.accessToken "" } ∧
    (demoService.Refresh demoJwt (demoEnv 2000 "u-1") demoStore "rt-0").1 =
      ("", some Error.ErrNoRows) ∧
    (RefreshHandler demoService demoJwt (demoEnv 2000 "u-1") demoStore (some "rt-0")).1 =
      { status := 401, body := Body.error "Invalid or expired refresh token" } := by
  decide

/-! ## Lemmas on the store queries -/

theorem queryUserByUsername_ok {db : Store} {e : Option Error} {username : String} {u : UserRow}
    (h : db.queryUserByUsername e username = Except.ok u) :
    e = none ∧ db.users.find? (fun v => v.username == username) = some u := by
  unfold Store.queryUserByUsername at h
  cases e with
  | some err => simp at h
  | none =>
    cases hf : db.users.find? (fun v => v.username == username) with
    | none => simp [hf] at h
    | some v => simp [hf] at h; simp [h]

theorem find_user_mem {users : List UserRow} {username : String} {u : UserRow}
    (h : users.find? (fun v => v.username == username) = some u) :
    u ∈ users ∧ u.username = username := by
  refine ⟨List.mem_of_find?_eq_some h, ?_⟩
  have := List.find?_some h
  simpa using this

theorem Login_nil_error_user (s : Service) (bc : Bcrypt) (jw : Jwt)
    (env : Env) (db : Store) (username password : String)
    (h : (s.Login bc jw env db username password).1.2.2 = none) :
    ∃ u ∈ db.users, u.username = username ∧
      bc.CompareHashAndPassword u.password_hash password = none := by
  unfold Service.Login at h
  cases hq : db.queryUserByUsername (env.dbErr 0) username with
  | error err => simp [hq] at h
  | ok user =>
    have hm := find_user_mem (queryUserByUsername_ok hq).2
    cases hc : bc.CompareHashAndPassword user.password_hash password with
    | some err => simp [hq, hc] at h
    | none => exact ⟨user, hm.1, hm.2, hc⟩

theorem Login_no_accepted_user_error (s : Service) (bc : Bcrypt) (jw : Jwt)
    (env : Env) (db : Store) (username password : String)
    (hno : ¬ ∃ u ∈ db.users, u.username = username ∧
      bc.CompareHashAndPassword u.password_hash password = none) :
    (s.Login bc jw env db username password).1.2.2 ≠ none :=
  fun h => hno (Login_nil_error_user s bc jw env db username password h)

/-! ## C2: when Login succeeds -/

/-- C2. For every store, environment, username and password: if Login returns a nil
error then some user of the users table has that username and the hasher accepts the
password against that user's password_hash; when there is no such user Login returns
a non-nil error; and whenever the error is non-nil both token strings are empty. -/
theorem Login_succeeds_only_for_accepted_user (s : Service) (bc : Bcrypt) (jw : Jwt)
    (env : Env) (db : Store) (username password : String) :
    ((s.Login bc jw env db username password).1.2.2 = none →
      ∃ u ∈ db.users, u.username = username ∧
        bc.CompareHashAndPassword u.password_hash password = none) ∧
    ((¬ ∃ u ∈ db.users, u.username = username ∧
        bc.CompareHashAndPassword u.password_hash password = none) →
      (s.Login bc jw env db username password).1.2.2 ≠ none) ∧
    ((s.Login bc jw env db username password).1.2.2 ≠ none →
      (s.Login bc jw env db username password).1.1 = "" ∧
      (s.Login bc jw env db username password).1.2.1 = "") := by
  have key := Login_nil_error_user s bc jw env db username password
  refine ⟨key, fun hno h => hno (key h), ?_⟩
  intro h
  unfold Service.Login at h ⊢
  cases hq : db.queryUserByUsername (env.dbErr 0) username with
  | error err => simp
  | ok user =>
    cases hc : bc.CompareHashAndPassword user.password_hash password with
    | some err => simp [hc]
    | none =>
      rcases ha : s.generateAccessToken jw env user.id user.username with ⟨a, _ | ea⟩
      · rcases hr : s.generateRefreshToken env 1 db user.id with ⟨⟨r, _ | er⟩, db'⟩
        · simp [hq, hc, ha, hr] at h
        · simp [hc, ha, hr]
      · simp [hc, ha]

/-- C2 at a concrete input: alice logs in with her password on the demo store. -/
theorem Login_succeeds_only_for_accepted_user_witness :
    ∃ u ∈ demoStore.users, u.username = "alice" ∧
      demoBcrypt.CompareHashAndPassword u.password_hash "s3cret" = none :=
  (Login_succeeds_only_for_accepted_user demoService demoBcrypt demoJwt (demoEnv 0 "u-1")
    demoStore "alice" "s3cret").1 (by decide)

/-! ## C3: unknown username against wrong password -/

theorem LoginHandler_of_Login_error (s : Service) (bc : Bcrypt) (jw : Jwt) (env : Env)
    (db : Store) (username password : String) (hu : username ≠ "") (hp : password ≠ "")
    (herr : (s.Login bc jw env db username password).1.2.2 ≠ none) :
    (LoginHandler s bc jw env db (some (username, password))).1 =
      { status := StatusUnauthorized, body := Body.error "Invalid credentials" } := by
  unfold LoginHandler
  rcases hl : s.Login bc jw env db username password with ⟨⟨a, r, _ | e⟩, db'⟩
  · simp [hl] at herr
  · simp [requiredFailures, hu, hp, hl]

/-- C3 (the claim as stated fails). On the demo store, Login for the unknown username
"bob" returns `sql.ErrNoRows`, Login for alice with a wrong password returns
`bcrypt.ErrMismatchedHashAndPassword`: the caller of Login receives two different
errors. -/
theorem Login_errors_differ :
    (demoService.Login demoBcrypt demoJwt (demoEnv 0 "u-1") demoStore "bob" "s3cret").1.2.2
      = some Error.ErrNoRows ∧
    (demoService.Login demoBcrypt demoJwt (demoEnv 0 "u-1") demoStore "alice" "wrong").1.2.2
      = some Error.ErrMismatchedHashAndPassword ∧
    (demoService.Login demoBcrypt demoJwt (demoEnv 0 "u-1") demoStore "bob" "s3cret").1.2.2 ≠
    (demoService.Login demoBcrypt demoJwt (demoEnv 0 "u-1") demoStore "alice" "wrong").1.2.2 := by
  decide

/-- C3 (amended). For every store: when no user has the name `name1`, and the hasher
rejects `pw2` for every user named `name2`, LoginHandler answers the two login requests
(non-empty names and passwords) with one and the same response, status 401 with the
error message "Invalid credentials". The merging is done by the handler, not by Login. -/
theorem LoginHandler_unknown_user_same_as_wrong_password (s : Service) (bc : Bcrypt)
    (jw : Jwt) (env : Env) (db : Store) (name1 pw1 name2 pw2 : String)
    (hn1 : name1 ≠ "") (hp1 : pw1 ≠ "") (hn2 : name2 ≠ "") (hp2 : pw2 ≠ "")
    (hunknown : ∀ u ∈ db.users, u.username ≠ name1)
    (hwrong : ∀ u ∈ db.users, u.username = name2 →
      bc.CompareHashAndPassword u.password_hash pw2 ≠ none) :
    (LoginHandler s bc jw env db (some (name1, pw1))).1 =
      (LoginHandler s bc jw env db (some (name2, pw2))).1 ∧
    (LoginHandler s bc jw env db (some (name1, pw1))).1 =
      { status := StatusUnauthorized, body := Body.error "Invalid credentials" } := by
  have h1 : (s.Login bc jw env db name1 pw1).1.2.2 ≠ none := by
    apply (Login_no_accepted_user_error s bc jw env db name1 pw1)
    rintro ⟨u, hu, hname, _⟩
    exact hunknown u hu hname
  have h2 : (s.Login bc jw env db name2 pw2).1.2.2 ≠ none := by
    apply (Login_no_accepted_user_error s bc jw env db name2 pw2)
    rintro ⟨u, hu, hname, hacc⟩
    exact hwrong u hu hname hacc
  rw [LoginHandler_of_Login_error s bc jw env db name1 pw1 hn1 hp1 h1,
    LoginHandler_of_Login_error s bc jw env db name2 pw2 hn2 hp2 h2]
  exact ⟨rfl, rfl⟩

/-- C3 (amended) at a concrete input: "bob" is unknown to the demo store and "wrong" is
not alice's password. -/
theorem LoginHandler_unknown_user_same_as_wrong_password_witness :
    (LoginHandler demoService demoBcrypt demoJwt (demoEnv 0 "u-1") demoStore
        (some ("bob", "s3cret"))).1 =
      (LoginHandler demoService demoBcrypt demoJwt (demoEnv 0 "u-1") demoStore
        (some ("alice", "wrong"))).1 ∧
    (LoginHandler demoService demoBcrypt demoJwt (demoEnv 0 "u-1") demoStore
        (some ("bob", "s3cret"))).1 =
      { status := StatusUnauthorized, body := Body.error "Invalid credentials" } :=
  LoginHandler_unknown_user_same_as_wrong_password demoService demoBcrypt demoJwt
    (demoEnv 0 "u-1") demoStore "bob" "s3cret" "alice" "wrong"
    (by decide) (by decide) (by decide) (by decide) (by decide) (by decide)

/-! ## Lemmas on Register and on the steps of Login -/

theorem Register_ok (s : Service) (bc : Bcrypt) (env : Env) (db : Store) (user : User)
    (hfresh : ∀ u ∈ db.users, u.username ≠ user.Username)
    (hhash : (bc.GenerateFromPassword user.PasswordHash DefaultCost env.entropy).2 = none)
    (hins : env.dbErr 0 = none) :
    s.Register bc env db user =
      ((env.newID, none),
        { db with users := db.users ++
            [{ id := env.newID, username := user.Username,
               password_hash := (bc.GenerateFromPassword user.PasswordHash DefaultCost env.entropy).1,
               email := user.Email }] }) := by
  have hany : db.users.any (fun u => u.username == user.Username) = false := by
    rw [List.any_eq_false]
    intro u hu
    simpa using hfresh u hu
  unfold Service.Register
  rcases hg : bc.GenerateFromPassword user.PasswordHash DefaultCost env.entropy with ⟨hash, _ | e⟩
  · simp [Store.insertUser, hins, hany]
  · simp [hg] at hhash

theorem find_user_append_new (users : List UserRow) (row : UserRow) (username : String)
    (hrow : row.username = username) (hfresh : ∀ u ∈ users, u.username ≠ username) :
    (users ++ [row]).find? (fun v => v.username == username) = some row := by
  have hnone : users.find? (fun v => v.username == username) = none := by
    rw [List.find?_eq_none]
    intro u hu
    simpa using hfresh u hu
  simp [List.find?_append, hnone, hrow]

theorem generateAccessToken_ok {jw : Jwt} (hjw : jw.Lawful) (s : Service) (env : Env)
    (userID : Int) (username : String) :
    (s.generateAccessToken jw env userID username).2 = none ∧
    (s.generateAccessToken jw env userID username).1 ≠ "" :=
  ⟨hjw.sign_ok _ _, hjw.sign_nonempty _ _⟩

theorem generateRefreshToken_ok (s : Service) (env : Env) (stmt : Nat) (db : Store) (userID : Int)
    (hio : env.dbErr stmt = none) (hnew : ∀ r ∈ db.refresh_tokens, r.token ≠ env.uuid) :
    s.generateRefreshToken env stmt db userID =
      ((env.uuid, none),
        { db with refresh_tokens := db.refresh_tokens ++
            [{ user_id := userID, token := env.uuid, expires_at := env.now + 7 * 24 * Hour }] }) := by
  have hany : db.refresh_tokens.any (fun r => r.token == env.uuid) = false := by
    rw [List.any_eq_false]
    intro r hr
    simpa using hnew r hr
  simp [Service.generateRefreshToken, Store.insertRefreshToken, hio, hany]

theorem Login_ok {jw : Jwt} (hjw : jw.Lawful) (s : Service) (bc : Bcrypt) (env : Env)
    (db : Store) (username password : String) (user : UserRow)
    (hfind : db.users.find? (fun v => v.username == username) = some user)
    (hacc : bc.CompareHashAndPassword user.password_hash password = none)
    (hio : ∀ k, env.dbErr k = none) (hnew : ∀ r ∈ db.refresh_tokens, r.token ≠ env.uuid) :
    s.Login bc jw env db username password =
      (((s.generateAccessToken jw env user.id user.username).1, env.uuid, none),
        { db with refresh_tokens := db.refresh_tokens ++
            [{ user_id := user.id, token := env.uuid, expires_at := env.now + 7 * 24 * Hour }] }) := by
  have ha := generateAccessToken_ok hjw s env user.id user.username
  rcases hg : s.generateAccessToken jw env user.id user.username with ⟨a, _ | e⟩
  · simp [Service.Login, Store.queryUserByUsername, hio 0, hfind, hacc, hg,
      generateRefreshToken_ok s env 1 db user.id (hio 1) hnew]
  · simp [hg] at ha

/-! ## C4: Register, then Login -/

/-- C4 (the claim as stated fails). The username "carol" is not in the demo store, the
73-byte password is not empty, and the insert would not fail; but hashing fails (bcrypt
takes at most 72 bytes), Register returns the hashing error and stores nothing. -/
theorem Register_fails_when_hashing_fails :
    (∀ u ∈ demoStore.users, u.username ≠ "carol") ∧
    (demoEnv 0 "u-1").dbErr 0 = none ∧
    (demoService.Register demoBcrypt (demoEnv 0 "u-1") demoStore
      { ID := 0, Username := "carol", Email := "carol@x.com",
        PasswordHash := "aaaaaaaaaaaaaaaaaaaaaaaaaaaaaaaaaaaaaaaaaaaaaaaaaaaaaaaaaaaaaaaaaaaaaaaaa" })
      = ((0, some (Error.bcrypt "bcrypt: password length exceeds 72 bytes")), demoStore) := by
  decide

/-- C4 (amended). For every username, password and email and every store that does not
yet contain the username: if the hashing of the password and the store operations do
not fail (no driver failure, and the generated refresh token is not yet in the store),
Register succeeds, and a following Login with the same username and password returns a
nil error, a non-empty access token and a non-empty refresh token. The libraries are
taken to keep their contracts, and the uuid string to be non-empty, as every rendering
of a UUID is. -/
theorem Register_then_Login_succeeds (s : Service) (bc : Bcrypt) (jw : Jwt)
    (env env' : Env) (db : Store) (user : User)
    (hbc : bc.Lawful) (hjw : jw.Lawful)
    (hfresh : ∀ u ∈ db.users, u.username ≠ user.Username)
    (hhash : (bc.GenerateFromPassword user.PasswordHash DefaultCost env.entropy).2 = none)
    (hins : env.dbErr 0 = none)
    (hio : ∀ k, env'.dbErr k = none)
    (huuid : env'.uuid ≠ "")
    (hnew : ∀ r ∈ db.refresh_tokens, r.token ≠ env'.uuid) :
    (s.Register bc env db user).1.2 = none ∧
    (s.Login bc jw env' (s.Register bc env db user).2 user.Username user.PasswordHash).1.2.2
      = none ∧
    (s.Login bc jw env' (s.Register bc env db user).2 user.Username user.PasswordHash).1.1
      ≠ "" ∧
    (s.Login bc jw env' (s.Register bc env db user).2 user.Username user.PasswordHash).1.2.1
      ≠ "" := by
  rw [Register_ok s bc env db user hfresh hhash hins]
  refine ⟨rfl, ?_⟩
  have hl := Login_ok hjw s bc env'
    { db with users := db.users ++
        [{ id := env.newID, username := user.Username,
           password_hash := (bc.GenerateFromPassword user.PasswordHash DefaultCost env.entropy).1,
           email := user.Email }] }
    user.Username user.PasswordHash
    { id := env.newID, username := user.Username,
      password_hash := (bc.GenerateFromPassword user.PasswordHash DefaultCost env.entropy).1,
      email := user.Email }
    (find_user_append_new db.users _ user.Username rfl hfresh)
    (hbc _ _ _ hhash) hio hnew
  rw [hl]
  exact ⟨rfl, (generateAccessToken_ok hjw s env' _ _).2, huuid⟩

/-- C4 (amended) at a concrete input: carol registers on the demo store with the
password "pa55word" and logs in. -/
theorem Register_then_Login_succeeds_witness :
    (demoService.Register demoBcrypt (demoEnv 0 "u-1") demoStore
      { ID := 0, Username := "carol", PasswordHash := "pa55word", Email := "carol@x.com" }).1.2
      = none ∧
    (demoService.Login demoBcrypt demoJwt (demoEnv 5 "u-2")
      (demoService.Register demoBcrypt (demoEnv 0 "u-1") demoStore
        { ID := 0, Username := "carol", PasswordHash := "pa55word", Email := "carol@x.com" }).2
      "carol" "pa55word").1.2.2 = none ∧
    (demoService.Login demoBcrypt demoJwt (demoEnv 5 "u-2")
      (demoService.Register demoBcrypt (demoEnv 0 "u-1") demoStore
        { ID := 0, Username := "carol", PasswordHash := "pa55word", Email := "carol@x.com" }).2
      "carol" "pa55word").1.1 ≠ "" ∧
    (demoService.Login demoBcrypt demoJwt (demoEnv 5 "u-2")
      (demoService.Register demoBcrypt (demoEnv 0 "u-1") demoStore
        { ID := 0, Username := "carol", PasswordHash := "pa55word", Email := "carol@x.com" }).2
      "carol" "pa55word").1.2.1 ≠ "" :=
  Register_then_Login_succeeds demoService demoBcrypt demoJwt (demoEnv 0 "u-1") (demoEnv 5 "u-2")
    demoStore { ID := 0, Username := "carol", PasswordHash := "pa55word", Email := "carol@x.com" }
    demoBcrypt_lawful demoJwt_lawful (by decide) (by decide) (by decide)
    (fun _ => rfl) (by decide) (by decide)

/-! ## Lemmas on VerifyToken -/

theorem int_floor_le (t : Int) : t - t % 1000000000 ≤ t := by omega

theorem int_floor_gt (t : Int) : t - 1000000000 < t - t % 1000000000 := by omega

theorem int_floor_mod (t : Int) : (t - t % 1000000000) % 1000000000 = 0 := by omega

theorem int_floor_of_mod (t : Int) (h : t % 1000000000 = 0) :
    (t + 15 * (60 * 1000000000)) - (t + 15 * (60 * 1000000000)) % 1000000000 =
      t + 15 * (60 * 1000000000) := by omega

theorem int_issue_lt (t x : Int) (h : (t + 15 * (60 * 1000000000)) - 1000000000 < x) :
    t < x := by omega

theorem Truncate_le (t : Time) : Time.Truncate t TimePrecision ≤ t := int_floor_le t

theorem Truncate_gt (t : Time) : t - Second < Time.Truncate t TimePrecision := int_floor_gt t

theorem Truncate_mod (t : Time) : Time.Truncate t TimePrecision % TimePrecision = 0 :=
  int_floor_mod t

theorem Truncate_of_mod (t : Time) (h : t % Second = 0) :
    Time.Truncate (t + 15 * Minute) TimePrecision = t + 15 * Minute := int_floor_of_mod t h

/-- The claims generateAccessToken signs for a call at `env.now`. -/
theorem generateAccessToken_eq (s : Service) (jw : Jwt) (env : Env) (userID : Int)
    (username : String) :
    s.generateAccessToken jw env userID username =
      jw.SignedString s.secret
        { ExpiresAt := some (Time.Truncate (env.now + 15 * Minute) TimePrecision),
          NotBefore := none,
          IssuedAt := some (Time.Truncate env.now TimePrecision),
          UserID := userID, Username := username } := rfl

/-- The dates generateAccessToken puts into the claims are in the precision of the
wire format. -/
theorem generated_claims_in_precision (t : Time) :
    RegisteredClaims.InPrecision
      { ExpiresAt := some (Time.Truncate (t + 15 * Minute) TimePrecision),
        NotBefore := none,
        IssuedAt := some (Time.Truncate t TimePrecision) } := by
  refine ⟨?_, ?_, ?_⟩
  · intro x hx
    simp only [Option.some.injEq] at hx
    rw [← hx]
    exact Truncate_mod _
  · intro x hx
    simp at hx
  · intro x hx
    simp only [Option.some.injEq] at hx
    rw [← hx]
    exact Truncate_mod _

theorem VerifyToken_generated_ok {jw : Jwt} (hjw : jw.Lawful) (s : Service) (env env' : Env)
    (userID : Int) (username : String)
    (hafter : env.now ≤ env'.now)
    (hbefore : env'.now < Time.Truncate (env.now + 15 * Minute) TimePrecision) :
    s.VerifyToken jw env' (s.generateAccessToken jw env userID username).1 =
      (some { ExpiresAt := some (Time.Truncate (env.now + 15 * Minute) TimePrecision),
              NotBefore := none,
              IssuedAt := some (Time.Truncate env.now TimePrecision),
              UserID := userID, Username := username }, none) := by
  have hb' : ¬ Time.Truncate (env.now + 15 * Minute) TimePrecision ≤ env'.now :=
    not_le.mpr hbefore
  have ha' : ¬ env'.now < Time.Truncate env.now TimePrecision :=
    not_lt.mpr (le_trans (Truncate_le env.now) hafter)
  have hd := hjw.decode_sign s.secret
    { ExpiresAt := some (Time.Truncate (env.now + 15 * Minute) TimePrecision),
      NotBefore := none,
      IssuedAt := some (Time.Truncate env.now TimePrecision),
      UserID := userID, Username := username } (generated_claims_in_precision env.now)
  rw [generateAccessToken_eq]
  simp [Service.VerifyToken, Jwt.ParseWithClaims, hd, RegisteredClaims.Valid,
    Time.Before, hb', ha']

theorem VerifyToken_generated_expired {jw : Jwt} (hjw : jw.Lawful) (s : Service) (env env' : Env)
    (userID : Int) (username : String)
    (hexp : Time.Truncate (env.now + 15 * Minute) TimePrecision ≤ env'.now) :
    s.VerifyToken jw env' (s.generateAccessToken jw env userID username).1 =
      (none, some (Error.jwt "token is expired")) := by
  have hd := hjw.decode_sign s.secret
    { ExpiresAt := some (Time.Truncate (env.now + 15 * Minute) TimePrecision),
      NotBefore := none,
      IssuedAt := some (Time.Truncate env.now TimePrecision),
      UserID := userID, Username := username } (generated_claims_in_precision env.now)
  rw [generateAccessToken_eq]
  simp [Service.VerifyToken, Jwt.ParseWithClaims, hd, RegisteredClaims.Valid,
    Time.Before, hexp]

/-- At the time of issue the token has not expired: the truncated expiry is more than
fourteen minutes away. -/
theorem issue_before_expiry (t : Time) : t < Time.Truncate (t + 15 * Minute) TimePrecision := by
  exact int_issue_lt t _ (Truncate_gt (t + 15 * Minute))

/-! ## C5: the access token round trip -/

/-- C5. For every user id, username and secret: generateAccessToken returns a string
and a nil error, and VerifyToken, applied at the time of issue with the same secret to
that string, returns a nil error and claims whose UserID and Username are the ones given
at issue. In particular, when Login returns a nil error, its access token verifies at
that time to the id and the username of a user row that has the username logged in. -/
theorem VerifyToken_generateAccessToken_roundtrip (jw : Jwt) (hjw : jw.Lawful) (s : Service)
    (bc : Bcrypt) (env : Env) (db : Store) (userID : Int) (username password : String) :
    ((s.generateAccessToken jw env userID username).2 = none ∧
      ∃ claims, s.VerifyToken jw env (s.generateAccessToken jw env userID username).1 =
          (some claims, none) ∧
        claims.UserID = userID ∧ claims.Username = username) ∧
    ((s.Login bc jw env db username password).1.2.2 = none →
      ∃ u ∈ db.users, u.username = username ∧
        ∃ claims, s.VerifyToken jw env (s.Login bc jw env db username password).1.1 =
            (some claims, none) ∧
          claims.UserID = u.id ∧ claims.Username = u.username) := by
  have hmin := issue_before_expiry env.now
  refine ⟨⟨(generateAccessToken_ok hjw s env userID username).1, _,
    VerifyToken_generated_ok hjw s env env userID username le_rfl hmin, rfl, rfl⟩, ?_⟩
  intro h
  unfold Service.Login at h ⊢
  cases hq : db.queryUserByUsername (env.dbErr 0) username with
  | error err => simp [hq] at h
  | ok user =>
    have hm := find_user_mem (queryUserByUsername_ok hq).2
    refine ⟨user, hm.1, hm.2, ?_⟩
    cases hc : bc.CompareHashAndPassword user.password_hash password with
    | some err => simp [hq, hc] at h
    | none =>
      rcases ha : s.generateAccessToken jw env user.id user.username with ⟨a, _ | ea⟩
      · rcases hr : s.generateRefreshToken env 1 db user.id with ⟨⟨r, _ | er⟩, db'⟩
        · have hv := VerifyToken_generated_ok hjw s env env user.id user.username le_rfl hmin
          rw [ha] at hv
          exact ⟨_, by simpa [hc, ha, hr] using hv, rfl, rfl⟩
        · simp [hq, hc, ha, hr] at h
      · simp [hq, hc, ha] at h

/-- C5 at a concrete input: the token issued for user 7, "alice", at instant 100. -/
theorem VerifyToken_generateAccessToken_roundtrip_witness :
    (demoService.generateAccessToken demoJwt (demoEnv 100 "u-1") 7 "alice").2 = none ∧
      ∃ claims, demoService.VerifyToken demoJwt (demoEnv 100 "u-1")
          (demoService.generateAccessToken demoJwt (demoEnv 100 "u-1") 7 "alice").1 =
          (some claims, none) ∧
        claims.UserID = 7 ∧ claims.Username = "alice" :=
  (VerifyToken_generateAccessToken_roundtrip demoJwt demoJwt_lawful demoService demoBcrypt
    (demoEnv 100 "u-1") demoStore 7 "alice" "s3cret").1

/-! ## C6: the fifteen minutes of an access token -/

/-- C6 (the claim as stated fails). A token is issued at 0.9 s (900000000 ns) and
verified at 900.4 s: that is after the issue and before the issue plus 15 minutes
(900.9 s), yet VerifyToken refuses the token as expired, its expiresAt being 900.9 s
truncated to the whole second, 900 s. -/
theorem VerifyToken_refuses_before_fifteen_minutes :
    (demoEnv 900000000 "u-1").now ≤ (demoEnv 900400000000 "u-2").now ∧
    (demoEnv 900400000000 "u-2").now < (demoEnv 900000000 "u-1").now + 15 * Minute ∧
    demoService.VerifyToken demoJwt (demoEnv 900400000000 "u-2")
        (demoService.generateAccessToken demoJwt (demoEnv 900000000 "u-1") 7 "alice").1 =
      (none, some (Error.jwt "token is expired")) :=
  ⟨by decide, by decide,
    VerifyToken_generated_expired demoJwt_lawful demoService (demoEnv 900000000 "u-1")
      (demoEnv 900400000000 "u-2") 7 "alice" (by decide)⟩

/-- C6 (amended). For every access token issued by generateAccessToken at instant t
(its claims are issuedAt = t and expiresAt = t + 15 minutes, each truncated to the whole
second) and every verification instant t' with t ≤ t': VerifyToken returns the claims
and a nil error if t' is before that expiresAt, as it is at t + 15 minutes - 1 second,
and returns no claims and a non-nil error if t' is at or after that expiresAt, as it is
whenever t + 15 minutes ≤ t'. When t is a whole second, that expiresAt is
t + 15 minutes. -/
theorem VerifyToken_until_truncated_expiry (jw : Jwt) (hjw : jw.Lawful) (s : Service)
    (env env' : Env) (userID : Int) (username : String) (hafter : env.now ≤ env'.now) :
    (env'.now < Time.Truncate (env.now + 15 * Minute) Second →
      (s.VerifyToken jw env' (s.generateAccessToken jw env userID username).1).2 = none ∧
      ∃ claims, (s.VerifyToken jw env' (s.generateAccessToken jw env userID username).1).1 =
          some claims ∧
        claims.UserID = userID ∧ claims.Username = username ∧
        claims.IssuedAt = some (Time.Truncate env.now Second) ∧
        claims.ExpiresAt = some (Time.Truncate (env.now + 15 * Minute) Second)) ∧
    (env'.now = env.now + 15 * Minute - Second →
      (s.VerifyToken jw env' (s.generateAccessToken jw env userID username).1).2 = none) ∧
    (Time.Truncate (env.now + 15 * Minute) Second ≤ env'.now →
      (s.VerifyToken jw env' (s.generateAccessToken jw env userID username).1).2 ≠ none ∧
      (s.VerifyToken jw env' (s.generateAccessToken jw env userID username).1).1 = none) ∧
    (env.now + 15 * Minute ≤ env'.now →
      (s.VerifyToken jw env' (s.generateAccessToken jw env userID username).1).2 ≠ none ∧
      (s.VerifyToken jw env' (s.generateAccessToken jw env userID username).1).1 = none) ∧
    (env.now % Second = 0 → env'.now < env.now + 15 * Minute →
      (s.VerifyToken jw env' (s.generateAccessToken jw env userID username).1).2 = none) := by
  refine ⟨?_, ?_, ?_, ?_, ?_⟩
  · intro hlt
    rw [VerifyToken_generated_ok hjw s env env' userID username hafter hlt]
    exact ⟨rfl, _, rfl, rfl, rfl, rfl, rfl⟩
  · intro heq
    have hlt : env'.now < Time.Truncate (env.now + 15 * Minute) TimePrecision := by
      rw [heq]
      exact Truncate_gt _
    rw [VerifyToken_generated_ok hjw s env env' userID username hafter hlt]
  · intro hge
    rw [VerifyToken_generated_expired hjw s env env' userID username hge]
    simp
  · intro hge
    rw [VerifyToken_generated_expired hjw s env env' userID username
      (le_trans (Truncate_le _) hge)]
    simp
  · intro hmod hlt
    have hlt' : env'.now < Time.Truncate (env.now + 15 * Minute) TimePrecision := by
      rw [Truncate_of_mod env.now hmod]
      exact hlt
    rw [VerifyToken_generated_ok hjw s env env' userID username hafter hlt']

/-- C6 (amended) at a concrete input: a token issued at 0.9 s is accepted at 899.9 s,
one second before the issue plus 15 minutes, and refused at 900 s, its truncated
expiresAt. -/
theorem VerifyToken_until_truncated_expiry_witness :
    (demoService.VerifyToken demoJwt (demoEnv 899900000000 "u-2")
      (demoService.generateAccessToken demoJwt (demoEnv 900000000 "u-1") 7 "alice").1).2 =
        none ∧
    ((demoService.VerifyToken demoJwt (demoEnv 900000000000 "u-3")
      (demoService.generateAccessToken demoJwt (demoEnv 900000000 "u-1") 7 "alice").1).2 ≠
        none ∧
     (demoService.VerifyToken demoJwt (demoEnv 900000000000 "u-3")
      (demoService.generateAccessToken demoJwt (demoEnv 900000000 "u-1") 7 "alice").1).1 =
        none) :=
  ⟨(VerifyToken_until_truncated_expiry demoJwt demoJwt_lawful demoService
      (demoEnv 900000000 "u-1") (demoEnv 899900000000 "u-2") 7 "alice" (by decide)).2.1
      (by decide),
   (VerifyToken_until_truncated_expiry demoJwt demoJwt_lawful demoService
      (demoEnv 900000000 "u-1") (demoEnv 900000000000 "u-3") 7 "alice" (by decide)).2.2.1
      (by decide)⟩

/-! ## Lemmas on Refresh -/

theorem queryRefreshToken_ok {db : Store} {e : Option Error} {token : String}
    {row : RefreshTokenRow} (h : db.queryRefreshToken e token = Except.ok row) :
    e = none ∧ db.queryRefreshToken none token = Except.ok row := by
  cases e with
  | some err => simp [Store.queryRefreshToken] at h
  | none => exact ⟨rfl, h⟩

theorem queryUsernameByID_ok {db : Store} {e : Option Error} {userID : Int}
    {username : String} (h : db.queryUsernameByID e userID = Except.ok username) :
    e = none ∧ db.queryUsernameByID none userID = Except.ok username := by
  cases e with
  | some err => simp [Store.queryUsernameByID] at h
  | none => exact ⟨rfl, h⟩

theorem Refresh_store (s : Service) (jw : Jwt) (env : Env) (db : Store) (refreshToken : String) :
    (s.Refresh jw env db refreshToken).2 = db := by
  unfold Service.Refresh
  simp only
  split
  · rfl
  · split
    · rfl
    · split <;> rfl

/-- Refresh on a token the store does not return: the Scan error comes back. -/
theorem Refresh_of_query_error (s : Service) (jw : Jwt) (env : Env) (db : Store)
    (refreshToken : String) (e : Error)
    (hq : db.queryRefreshToken (env.dbErr 0) refreshToken = Except.error e) :
    s.Refresh jw env db refreshToken = (("", some e), db) := by
  simp [Service.Refresh, hq]

/-- Refresh on a stored token that expired before now: the empty string and the nil
error of the Scan. -/
theorem Refresh_of_expired (s : Service) (jw : Jwt) (env : Env) (db : Store)
    (refreshToken : String) (row : RefreshTokenRow)
    (hq : db.queryRefreshToken (env.dbErr 0) refreshToken = Except.ok row)
    (hexp : row.expires_at < env.now) :
    s.Refresh jw env db refreshToken = (("", none), db) := by
  simp [Service.Refresh, hq, Time.Before, hexp]

/-- Refresh on a stored token that has not expired before now, when the owner lookup
fails. -/
theorem Refresh_of_owner_error (s : Service) (jw : Jwt) (env : Env) (db : Store)
    (refreshToken : String) (row : RefreshTokenRow) (e : Error)
    (hq : db.queryRefreshToken (env.dbErr 0) refreshToken = Except.ok row)
    (hexp : env.now ≤ row.expires_at)
    (hu : db.queryUsernameByID (env.dbErr 1) row.user_id = Except.error e) :
    s.Refresh jw env db refreshToken = (("", some e), db) := by
  simp [Service.Refresh, hq, Time.Before, not_lt.mpr hexp, hu]

/-- Refresh on a stored token that has not expired before now, with its owner found. -/
theorem Refresh_of_live {jw : Jwt} (hjw : jw.Lawful) (s : Service) (env : Env) (db : Store)
    (refreshToken : String) (row : RefreshTokenRow) (username : String)
    (hq : db.queryRefreshToken (env.dbErr 0) refreshToken = Except.ok row)
    (hexp : env.now ≤ row.expires_at)
    (hu : db.queryUsernameByID (env.dbErr 1) row.user_id = Except.ok username) :
    s.Refresh jw env db refreshToken =
      (((s.generateAccessToken jw env row.user_id username).1, none), db) := by
  have ha := generateAccessToken_ok hjw s env row.user_id username
  rcases hg : s.generateAccessToken jw env row.user_id username with ⟨a, _ | e⟩
  · simp [Service.Refresh, hq, Time.Before, not_lt.mpr hexp, hu, hg]
  · simp [hg] at ha

/-- What is known when Refresh hands out a token: the row it read, the username it
read, and the token signed for them. -/
theorem Refresh_accepted {jw : Jwt} (hjw : jw.Lawful) (s : Service) (env : Env) (db : Store)
    (refreshToken : String) (hne : (s.Refresh jw env db refreshToken).1.1 ≠ "") :
    ∃ row username,
      db.queryRefreshToken (env.dbErr 0) refreshToken = Except.ok row ∧
      env.now ≤ row.expires_at ∧
      db.queryUsernameByID (env.dbErr 1) row.user_id = Except.ok username ∧
      s.Refresh jw env db refreshToken =
        (((s.generateAccessToken jw env row.user_id username).1, none), db) := by
  cases hq : db.queryRefreshToken (env.dbErr 0) refreshToken with
  | error e => simp [Refresh_of_query_error s jw env db refreshToken e hq] at hne
  | ok row =>
    by_cases hexp : row.expires_at < env.now
    · simp [Refresh_of_expired s jw env db refreshToken row hq hexp] at hne
    · have hle : env.now ≤ row.expires_at := not_lt.mp hexp
      cases hu : db.queryUsernameByID (env.dbErr 1) row.user_id with
      | error e => simp [Refresh_of_owner_error s jw env db refreshToken row e hq hle hu] at hne
      | ok username =>
        exact ⟨row, username, rfl, hle, hu, Refresh_of_live hjw s env db refreshToken row username hq hle hu⟩

/-! ## The demo store under Refresh -/

theorem demoStore_query_rt1 :
    demoStore.queryRefreshToken none "rt-1" =
      Except.ok { user_id := 1, token := "rt-1", expires_at := 1000 } := rfl

theorem demoStore_Refresh_rt1 (now : Time) (uuid : String) (h : now ≤ 1000) :
    (demoService.Refresh demoJwt (demoEnv now uuid) demoStore "rt-1").1.2 = none ∧
    (demoService.Refresh demoJwt (demoEnv now uuid) demoStore "rt-1").1.1 ≠ "" := by
  rw [Refresh_of_live demoJwt_lawful demoService (demoEnv now uuid) demoStore "rt-1"
    { user_id := 1, token := "rt-1", expires_at := 1000 } "alice" rfl h rfl]
  exact ⟨rfl, (generateAccessToken_ok demoJwt_lawful demoService (demoEnv now uuid) 1 "alice").2⟩

/-! ## C7: which refresh tokens are accepted -/

/-- C7 (the claim as stated fails). The token "rt-1" is stored with expires_at = 1000
and Refresh is called at instant 1000: expires_at is not strictly later than now, yet
Refresh returns a nil error and a non-empty access token. -/
theorem Refresh_accepts_at_expiry_instant :
    demoStore.queryRefreshToken none "rt-1" =
      Except.ok { user_id := 1, token := "rt-1", expires_at := 1000 } ∧
    ¬ ((demoEnv 1000 "u-1").now < 1000) ∧
    (demoService.Refresh demoJwt (demoEnv 1000 "u-1") demoStore "rt-1").1.2 = none ∧
    (demoService.Refresh demoJwt (demoEnv 1000 "u-1") demoStore "rt-1").1.1 ≠ "" :=
  ⟨rfl, by decide, demoStore_Refresh_rt1 1000 "u-1" (by decide)⟩

/-- C7 (amended). Assume the token lookup is answered by the store, the owner lookup
succeeds and signing succeeds. Then Refresh issues an access token (a nil error and a
non-empty string) if and only if the store holds a row for the refresh token and the
expires_at of that row is not earlier than the current time; a stored token whose
expires_at equals the current instant is accepted. -/
theorem Refresh_issues_iff_not_expired (jw : Jwt) (hjw : jw.Lawful) (s : Service) (env : Env)
    (db : Store) (refreshToken : String)
    (hio : env.dbErr 0 = none)
    (howner : ∀ row, db.queryRefreshToken none refreshToken = Except.ok row →
      ∃ username, db.queryUsernameByID (env.dbErr 1) row.user_id = Except.ok username) :
    (((s.Refresh jw env db refreshToken).1.2 = none ∧
        (s.Refresh jw env db refreshToken).1.1 ≠ "") ↔
      ∃ row, db.queryRefreshToken none refreshToken = Except.ok row ∧
        env.now ≤ row.expires_at) ∧
    (∀ row, db.queryRefreshToken none refreshToken = Except.ok row →
      row.expires_at = env.now →
      (s.Refresh jw env db refreshToken).1.2 = none ∧
        (s.Refresh jw env db refreshToken).1.1 ≠ "") := by
  have live : ∀ row, db.queryRefreshToken none refreshToken = Except.ok row →
      env.now ≤ row.expires_at →
      (s.Refresh jw env db refreshToken).1.2 = none ∧
        (s.Refresh jw env db refreshToken).1.1 ≠ "" := by
    intro row hrow hle
    obtain ⟨username, hu⟩ := howner row hrow
    rw [Refresh_of_live hjw s env db refreshToken row username (by rw [hio]; exact hrow) hle hu]
    exact ⟨rfl, (generateAccessToken_ok hjw s env _ _).2⟩
  refine ⟨⟨?_, ?_⟩, ?_⟩
  · rintro ⟨_, hne⟩
    obtain ⟨row, username, hq, hle, _, _⟩ := Refresh_accepted hjw s env db refreshToken hne
    exact ⟨row, (queryRefreshToken_ok hq).2, hle⟩
  · rintro ⟨row, hrow, hle⟩
    exact live row hrow hle
  · intro row hrow heq
    exact live row hrow (le_of_eq heq.symm)

/-- C7 (amended) at a concrete input: "rt-1" on the demo store at instant 1000. -/
theorem Refresh_issues_iff_not_expired_witness :
    (demoService.Refresh demoJwt (demoEnv 1000 "u-1") demoStore "rt-1").1.2 = none ∧
      (demoService.Refresh demoJwt (demoEnv 1000 "u-1") demoStore "rt-1").1.1 ≠ "" :=
  (Refresh_issues_iff_not_expired demoJwt demoJwt_lawful demoService (demoEnv 1000 "u-1")
    demoStore "rt-1" rfl
    (fun row hrow => ⟨"alice", by
      have hr : row = { user_id := 1, token := "rt-1", expires_at := 1000 } := by
        rw [demoStore_query_rt1] at hrow
        exact (Except.ok.inj hrow).symm
      subst hr
      rfl⟩)).2 { user_id := 1, token := "rt-1", expires_at := 1000 } rfl rfl

/-! ## C8: Refresh does not write -/

/-- C8. For every input and store, Refresh leaves the store as it was, whether it
succeeds or fails. Hence, if Refresh issued an access token for a refresh token whose
row has expiry `row.expires_at`, a later call (made on the store the first call left,
the store answering its statements) before that expiry issues one again. -/
theorem Refresh_read_only (jw : Jwt) (hjw : jw.Lawful) (s : Service) (env env' : Env)
    (db : Store) (refreshToken : String) :
    (s.Refresh jw env db refreshToken).2 = db ∧
    (∀ row, db.queryRefreshToken none refreshToken = Except.ok row →
      (s.Refresh jw env db refreshToken).1.2 = none →
      (s.Refresh jw env db refreshToken).1.1 ≠ "" →
      (∀ k, env'.dbErr k = none) → env.now ≤ env'.now → env'.now < row.expires_at →
      (s.Refresh jw env' (s.Refresh jw env db refreshToken).2 refreshToken).1.2 = none ∧
      (s.Refresh jw env' (s.Refresh jw env db refreshToken).2 refreshToken).1.1 ≠ "") := by
  refine ⟨Refresh_store s jw env db refreshToken, ?_⟩
  intro row hrow _ hne hio _ hlt
  rw [Refresh_store s jw env db refreshToken]
  obtain ⟨row1, username, hq, _, hu, _⟩ := Refresh_accepted hjw s env db refreshToken hne
  have hsame : row1 = row := by
    have h1 := (queryRefreshToken_ok hq).2
    rw [hrow] at h1
    exact (Except.ok.inj h1).symm
  subst hsame
  have hu' := (queryUsernameByID_ok hu).2
  rw [Refresh_of_live hjw s env' db refreshToken row1 username (by rw [hio 0]; exact hrow)
    (le_of_lt hlt) (by rw [hio 1]; exact hu')]
  exact ⟨rfl, (generateAccessToken_ok hjw s env' _ _).2⟩

/-- C8 at a concrete input: "rt-1" (expiry 1000) is refreshed at instant 10 and again,
on the store that call left, at instant 999. -/
theorem Refresh_read_only_witness :
    (demoService.Refresh demoJwt (demoEnv 999 "u-2")
      (demoService.Refresh demoJwt (demoEnv 10 "u-1") demoStore "rt-1").2 "rt-1").1.2 = none ∧
    (demoService.Refresh demoJwt (demoEnv 999 "u-2")
      (demoService.Refresh demoJwt (demoEnv 10 "u-1") demoStore "rt-1").2 "rt-1").1.1 ≠ "" :=
  (Refresh_read_only demoJwt demoJwt_lawful demoService (demoEnv 10 "u-1") (demoEnv 999 "u-2")
    demoStore "rt-1").2 { user_id := 1, token := "rt-1", expires_at := 1000 } rfl
    (demoStore_Refresh_rt1 10 "u-1" (by decide)).1
    (demoStore_Refresh_rt1 10 "u-1" (by decide)).2
    (fun _ => rfl) (by decide) (by decide)

/-! ## C9: the token Refresh issues -/

/-- In a list in which no two elements satisfy `p`, every element that satisfies `p`
is the one `find?` returns. -/
theorem find_eq_of_unique {α : Type} (p : α → Bool) (l : List α) (x y : α)
    (huniq : l.Pairwise (fun a b => ¬ (p a = true ∧ p b = true)))
    (hf : l.find? p = some x) (hy : y ∈ l) (hpy : p y = true) : y = x := by
  induction l with
  | nil => simp at hy
  | cons a l ih =>
    rw [List.pairwise_cons] at huniq
    by_cases hpa : p a = true
    · have hx : a = x := by simpa [List.find?_cons, hpa] using hf
      rcases List.mem_cons.mp hy with h | h
      · rw [h, hx]
      · exact absurd ⟨hpa, hpy⟩ (huniq.1 y h)
    · have hf' : l.find? p = some x := by simpa [List.find?_cons, hpa] using hf
      rcases List.mem_cons.mp hy with h | h
      · rw [h] at hpy
        exact absurd hpy hpa
      · exact ih huniq.2 hf' h

theorem queryRefreshToken_find {db : Store} {e : Option Error} {token : String}
    {row : RefreshTokenRow} (h : db.queryRefreshToken e token = Except.ok row) :
    db.refresh_tokens.find? (fun r => r.token == token) = some row := by
  unfold Store.queryRefreshToken at h
  cases e with
  | some err => simp at h
  | none =>
    cases hf : db.refresh_tokens.find? (fun r => r.token == token) with
    | none => simp [hf] at h
    | some r => simp [hf] at h; simp [h]

theorem queryUsernameByID_find {db : Store} {e : Option Error} {userID : Int}
    {username : String} (h : db.queryUsernameByID e userID = Except.ok username) :
    ∃ u, db.users.find? (fun v => v.id == userID) = some u ∧ u.username = username := by
  unfold Store.queryUsernameByID at h
  cases e with
  | some err => simp at h
  | none =>
    cases hf : db.users.find? (fun v => v.id == userID) with
    | none => simp [hf] at h
    | some u => simp [hf] at h; exact ⟨u, rfl, h⟩

/-- C9. For every refresh token for which Refresh issues an access token (a non-empty
string), at any time of call: the error is nil; the refresh_tokens table has a row with
that token, `row` being the first of them, and the users table has a row with the id
`row.user_id`, `u` being the first of them; and VerifyToken (same secret, same time)
returns for the access token a nil error and claims whose UserID is `row.user_id` and
whose Username is `u.username`. When no two rows of refresh_tokens share a token and no
two rows of users share an id, these are the user_id of every row that has the token and
the username of every user row that has that id. -/
theorem Refresh_token_verifies_to_owner (jw : Jwt) (hjw : jw.Lawful) (s : Service) (env : Env)
    (db : Store) (refreshToken : String)
    (hne : (s.Refresh jw env db refreshToken).1.1 ≠ "") :
    (s.Refresh jw env db refreshToken).1.2 = none ∧
    ∃ row u claims,
      db.refresh_tokens.find? (fun r => r.token == refreshToken) = some row ∧
      db.users.find? (fun v => v.id == row.user_id) = some u ∧
      row ∈ db.refresh_tokens ∧ row.token = refreshToken ∧
      u ∈ db.users ∧ u.id = row.user_id ∧
      s.VerifyToken jw env (s.Refresh jw env db refreshToken).1.1 = (some claims, none) ∧
      claims.UserID = row.user_id ∧ claims.Username = u.username ∧
      (db.refresh_tokens.Pairwise (fun a b => a.token ≠ b.token) →
        db.users.Pairwise (fun a b => a.id ≠ b.id) →
        ∀ row' ∈ db.refresh_tokens, row'.token = refreshToken →
        ∀ u' ∈ db.users, u'.id = row'.user_id →
          claims.UserID = row'.user_id ∧ claims.Username = u'.username) := by
  obtain ⟨row, username, hq, _, hu, hr⟩ := Refresh_accepted hjw s env db refreshToken hne
  have hrow := queryRefreshToken_find hq
  obtain ⟨u, hfu, huname⟩ := queryUsernameByID_find hu
  have hrow_mem := List.mem_of_find?_eq_some hrow
  have hrow_tok : row.token = refreshToken := by simpa using List.find?_some hrow
  have hu_mem := List.mem_of_find?_eq_some hfu
  have hu_id : u.id = row.user_id := by simpa using List.find?_some hfu
  rw [hr]
  refine ⟨rfl, row, u, _, hrow, hfu, hrow_mem, hrow_tok, hu_mem, hu_id,
    VerifyToken_generated_ok hjw s env env row.user_id username le_rfl
      (issue_before_expiry env.now), rfl, huname.symm, ?_⟩
  intro htok hid row' hrow' htok' u' hu' hid'
  have hsame : row' = row := by
    refine find_eq_of_unique (fun r => r.token == refreshToken) db.refresh_tokens row row'
      (htok.imp ?_) hrow hrow' (by simp [htok'])
    intro a b hab hboth
    simp only [beq_iff_eq] at hboth
    exact hab (by rw [hboth.1, hboth.2])
  subst hsame
  have hsameu : u' = u := by
    refine find_eq_of_unique (fun v => v.id == row'.user_id) db.users u u'
      (hid.imp ?_) hfu hu' (by simp [hid'])
    intro a b hab hboth
    simp only [beq_iff_eq] at hboth
    exact hab (by rw [hboth.1, hboth.2])
  subst hsameu
  exact ⟨rfl, huname.symm⟩

/-- C9 at a concrete input: on the store with alice (id 1) and bob (id 2), the access
token issued for bob's refresh token "rt-2" verifies to the id 2 and the name "bob". -/
theorem Refresh_token_verifies_to_owner_witness :
    ∃ claims,
      demoService.VerifyToken demoJwt (demoEnv 500 "u-1")
        (demoService.Refresh demoJwt (demoEnv 500 "u-1") demoTwoUserStore "rt-2").1.1 =
        (some claims, none) ∧
      claims.UserID = 2 ∧ claims.Username = "bob" := by
  have hne : (demoService.Refresh demoJwt (demoEnv 500 "u-1") demoTwoUserStore "rt-2").1.1 ≠
      "" := by
    rw [Refresh_of_live demoJwt_lawful demoService (demoEnv 500 "u-1") demoTwoUserStore "rt-2"
      { user_id := 2, token := "rt-2", expires_at := 1000 } "bob" rfl (by decide) rfl]
    exact (generateAccessToken_ok demoJwt_lawful demoService (demoEnv 500 "u-1") 2 "bob").2
  obtain ⟨_, row, u, claims, hrow, hu, _, _, _, _, hv, hid, hname, _⟩ :=
    Refresh_token_verifies_to_owner demoJwt demoJwt_lawful demoService (demoEnv 500 "u-1")
      demoTwoUserStore "rt-2" hne
  have hrow' : demoTwoUserStore.refresh_tokens.find? (fun r => r.token == "rt-2") =
      some { user_id := 2, token := "rt-2", expires_at := 1000 } := by decide
  rw [hrow'] at hrow
  have hr : row = { user_id := 2, token := "rt-2", expires_at := 1000 } :=
    (Option.some.inj hrow).symm
  subst hr
  have hu' : demoTwoUserStore.users.find? (fun v => v.id == 2) =
      some { id := 2, username := "bob", password_hash := "$2a$10$hunter2",
             email := "bob@x.com" } := by decide
  have hu2 : u = { id := 2, username := "bob", password_hash := "$2a$10$hunter2",
                   email := "bob@x.com" } := by
    have h2 := hu
    rw [show (({ user_id := 2, token := "rt-2", expires_at := 1000 } : RefreshTokenRow).user_id)
      = 2 from rfl, hu'] at h2
    exact (Option.some.inj h2).symm
  subst hu2
  exact ⟨claims, hv, hid, hname⟩

/-! ## C10: the record Login adds -/

/-- C10. For every Login that returns a nil error at instant `env.now`, with `u` the
user row the lookup by username returns: the refresh_tokens table after the call is the
table before it followed by exactly one record, whose token is the refresh token string
returned, whose user_id is `u.id` and whose expires_at is now + 7 days; that token was
not in the table before; and the users table is unchanged. -/
theorem Login_adds_one_refresh_token (s : Service) (bc : Bcrypt) (jw : Jwt) (env : Env)
    (db : Store) (username password : String)
    (hok : (s.Login bc jw env db username password).1.2.2 = none) :
    ∃ u, db.queryUserByUsername none username = Except.ok u ∧
      (s.Login bc jw env db username password).2.refresh_tokens =
        db.refresh_tokens ++
          [{ user_id := u.id, token := (s.Login bc jw env db username password).1.2.1,
             expires_at := env.now + 7 * 24 * Hour }] ∧
      (∀ r ∈ db.refresh_tokens, r.token ≠ (s.Login bc jw env db username password).1.2.1) ∧
      (s.Login bc jw env db username password).2.users = db.users := by
  unfold Service.Login at hok ⊢
  cases hq : db.queryUserByUsername (env.dbErr 0) username with
  | error err => simp [hq] at hok
  | ok user =>
    have hq0 : db.queryUserByUsername none username = Except.ok user := by
      have h0 := (queryUserByUsername_ok hq).1
      rw [h0] at hq
      exact hq
    refine ⟨user, hq0, ?_⟩
    cases hc : bc.CompareHashAndPassword user.password_hash password with
    | some err => simp [hq, hc] at hok
    | none =>
      rcases ha : s.generateAccessToken jw env user.id user.username with ⟨a, _ | ea⟩
      · cases hio : env.dbErr 1 with
        | some e =>
          simp [hq, hc, ha, Service.generateRefreshToken, Store.insertRefreshToken, hio] at hok
        | none =>
          by_cases hany : db.refresh_tokens.any (fun r => r.token == env.uuid) = true
          · simp [hq, hc, ha, Service.generateRefreshToken, Store.insertRefreshToken, hio,
              hany] at hok
          · have hnew : ∀ r ∈ db.refresh_tokens, r.token ≠ env.uuid := by
              intro r hr heq
              apply hany
              rw [List.any_eq_true]
              exact ⟨r, hr, by simp [heq]⟩
            simp only [hc, ha, generateRefreshToken_ok s env 1 db user.id hio hnew]
            exact ⟨trivial, hnew, trivial⟩
      · simp [hq, hc, ha] at hok

/-- C10 at a concrete input: alice logs in on the demo store at instant 50 and the
generated refresh token is "u-9". -/
theorem Login_adds_one_refresh_token_witness :
    ∃ u, demoStore.queryUserByUsername none "alice" = Except.ok u ∧
      (demoService.Login demoBcrypt demoJwt (demoEnv 50 "u-9") demoStore "alice" "s3cret").2.refresh_tokens =
        demoStore.refresh_tokens ++
          [{ user_id := u.id,
             token := (demoService.Login demoBcrypt demoJwt (demoEnv 50 "u-9") demoStore
               "alice" "s3cret").1.2.1,
             expires_at := (demoEnv 50 "u-9").now + 7 * 24 * Hour }] ∧
      (∀ r ∈ demoStore.refresh_tokens,
        r.token ≠ (demoService.Login demoBcrypt demoJwt (demoEnv 50 "u-9") demoStore
          "alice" "s3cret").1.2.1) ∧
      (demoService.Login demoBcrypt demoJwt (demoEnv 50 "u-9") demoStore "alice" "s3cret").2.users =
        demoStore.users :=
  Login_adds_one_refresh_token demoService demoBcrypt demoJwt (demoEnv 50 "u-9") demoStore
    "alice" "s3cret" (by decide)

/-! ## C11: registration requests that fail validation -/

theorem validateUser_ne_nil (v : Validator) (user : User)
    (h : user.Username = "" ∨ user.PasswordHash = "" ∨ user.Email = "" ∨
      v.email user.Email = false) :
    validateUser v user ≠ [] := by
  unfold validateUser requiredFailures
  rcases h with h | h | h | h
  · simp [h]
  · by_cases hu : user.Username = "" <;> simp [h, hu]
  · simp [h]
  · simp [h]

/-- C11. For every registration request whose username is empty, whose password is
empty, or whose email is empty or rejected by the `email` rule: RegisterHandler answers
400 with the validator's error, and the store it leaves is the store it was given, the
users table included. The outcome does not depend on the hasher or on the environment: Register is
not reached. A request whose body cannot be bound is answered 400 as well. -/
theorem RegisterHandler_rejects_invalid (s : Service) (bc : Bcrypt) (v : Validator)
    (env : Env) (db : Store) (user : User)
    (h : user.Username = "" ∨ user.PasswordHash = "" ∨ user.Email = "" ∨
      v.email user.Email = false) :
    RegisterHandler s bc v env db (some user) =
      ({ status := StatusBadRequest, body := Body.validationError (validateUser v user) }, db) ∧
    validateUser v user ≠ [] ∧
    (RegisterHandler s bc v env db (some user)).1.status = 400 ∧
    (RegisterHandler s bc v env db (some user)).2.users = db.users ∧
    RegisterHandler s bc v env db none =
      ({ status := StatusBadRequest, body := Body.error "Invalid request" }, db) := by
  have hne := validateUser_ne_nil v user h
  have heq : RegisterHandler s bc v env db (some user) =
      ({ status := StatusBadRequest, body := Body.validationError (validateUser v user) }, db) := by
    unfold RegisterHandler
    cases hv : validateUser v user with
    | nil => exact absurd hv hne
    | cons f fs => simp [hv]
  refine ⟨heq, hne, ?_, ?_, rfl⟩
  · rw [heq]; rfl
  · rw [heq]

/-- C11 at a concrete input: a request with an empty password on the demo store. -/
theorem RegisterHandler_rejects_invalid_witness :
    RegisterHandler demoService demoBcrypt demoValidator (demoEnv 0 "u-1") demoStore
        (some { ID := 0, Username := "carol", PasswordHash := "", Email := "carol@x.com" }) =
      ({ status := StatusBadRequest,
         body := Body.validationError (validateUser demoValidator
           { ID := 0, Username := "carol", PasswordHash := "", Email := "carol@x.com" }) },
        demoStore) :=
  (RegisterHandler_rejects_invalid demoService demoBcrypt demoValidator (demoEnv 0 "u-1")
    demoStore { ID := 0, Username := "carol", PasswordHash := "", Email := "carol@x.com" }
    (Or.inr (Or.inl rfl))).1

/-! ## C12: the authentication middleware -/

theorem VerifyToken_nil_error_claims (s : Service) (jw : Jwt) (env : Env) (tokenString : String)
    (h : (s.VerifyToken jw env tokenString).2 = none) :
    ∃ claims, s.VerifyToken jw env tokenString = (some claims, none) := by
  unfold Service.VerifyToken Jwt.ParseWithClaims at h ⊢
  cases hd : jw.Decode tokenString s.secret with
  | error e => simp [hd] at h
  | ok claims =>
    cases hv : claims.toRegisteredClaims.Valid env.now with
    | some e => simp [hd, hv] at h
    | none => exact ⟨claims, by simp [hv]⟩

theorem isPrefixOf_append_self (p t : List Char) : p.isPrefixOf (p ++ t) = true := by
  induction p with
  | nil => simp [List.isPrefixOf]
  | cons a l ih => simp [List.isPrefixOf, ih]

theorem isPrefixOf_split (p : List Char) : ∀ (l : List Char), p.isPrefixOf l = true →
    ∃ t, l = p ++ t := by
  induction p with
  | nil => intro l _; exact ⟨l, rfl⟩
  | cons a p ih =>
    intro l h
    cases l with
    | nil => simp [List.isPrefixOf] at h
    | cons b l =>
      simp only [List.isPrefixOf, Bool.and_eq_true, beq_iff_eq] at h
      obtain ⟨t, ht⟩ := ih l h.2
      exact ⟨t, by rw [h.1, ht]; rfl⟩

/-- A string that begins with p has p as `strings.HasPrefix` sees it, and
`strings.TrimPrefix` leaves what follows p. -/
theorem HasPrefix_append (p t : String) :
    HasPrefix (p ++ t) p = true ∧ TrimPrefix (p ++ t) p = t := by
  have h : HasPrefix (p ++ t) p = true := by
    simp only [HasPrefix, String.data_append]
    exact isPrefixOf_append_self p.data t.data
  refine ⟨h, ?_⟩
  simp only [TrimPrefix, h, if_true, String.data_append, List.drop_left]

/-- A string on which `strings.HasPrefix` answers true begins with p. -/
theorem HasPrefix_split (h p : String) (hp : HasPrefix h p = true) : ∃ t, h = p ++ t := by
  obtain ⟨l, hl⟩ := isPrefixOf_split p.data h.data hp
  exact ⟨String.mk l, String.ext (by simp [hl])⟩

/-- What AuthMiddleware does once the token it verifies is known to be `t`. -/
theorem AuthMiddleware_of_token (s : Service) (jw : Jwt) (env : Env) (next : Context → Context)
    (c : Context) (t : String) (hne : c.GetHeader "Authorization" ≠ "")
    (ht : (if HasPrefix (c.GetHeader "Authorization") "Bearer " then
            TrimPrefix (c.GetHeader "Authorization") "Bearer "
           else c.GetHeader "Authorization") = t) :
    ((s.VerifyToken jw env t).2 ≠ none →
      AuthMiddleware s jw env next c =
        some { c with written := some { status := 401, body := Body.error "Invalid token" },
                      aborted := true }) ∧
    (∀ claims, s.VerifyToken jw env t = (some claims, none) →
      AuthMiddleware s jw env next c =
        some (next ((c.Set "user_id" (Value.int claims.UserID)).Set "username"
          (Value.str claims.Username)))) := by
  constructor
  · intro h
    rcases hv : s.VerifyToken jw env t with ⟨cl, _ | e⟩
    · simp [hv] at h
    · simp [AuthMiddleware, hne, ht, hv, Context.JSON, Context.Abort]
  · intro claims hv
    simp [AuthMiddleware, hne, ht, hv]

/-- C12. AuthMiddleware gates every request. With an empty Authorization header it
writes 401 and aborts. With the header "Bearer " followed by a token t, and with any
other non-empty header, which is taken whole as t: if VerifyToken returns an error on t,
it writes 401 and aborts; if VerifyToken returns claims, it runs the handlers that
follow on the context in which `user_id` and `username` are set to the UserID and the
Username of those claims. Where it aborts, the result is the context it was given with
the response and the abort flag, so its keys are unchanged and the handlers that follow
(`next`) have not run. VerifyToken has no third outcome. -/
theorem AuthMiddleware_gates (s : Service) (jw : Jwt) (env : Env) (next : Context → Context)
    (c : Context) :
    (c.GetHeader "Authorization" = "" →
      AuthMiddleware s jw env next c =
        some { c with
          written := some { status := 401, body := Body.error "Authorization header required" },
          aborted := true }) ∧
    (∀ t, c.GetHeader "Authorization" = "Bearer " ++ t →
      ((s.VerifyToken jw env t).2 ≠ none →
        AuthMiddleware s jw env next c =
          some { c with written := some { status := 401, body := Body.error "Invalid token" },
                        aborted := true }) ∧
      (∀ claims, s.VerifyToken jw env t = (some claims, none) →
        AuthMiddleware s jw env next c =
          some (next ((c.Set "user_id" (Value.int claims.UserID)).Set "username"
            (Value.str claims.Username))))) ∧
    (c.GetHeader "Authorization" ≠ "" →
      (∀ t, c.GetHeader "Authorization" ≠ "Bearer " ++ t) →
      ((s.VerifyToken jw env (c.GetHeader "Authorization")).2 ≠ none →
        AuthMiddleware s jw env next c =
          some { c with written := some { status := 401, body := Body.error "Invalid token" },
                        aborted := true }) ∧
      (∀ claims, s.VerifyToken jw env (c.GetHeader "Authorization") = (some claims, none) →
        AuthMiddleware s jw env next c =
          some (next ((c.Set "user_id" (Value.int claims.UserID)).Set "username"
            (Value.str claims.Username))))) ∧
    (∀ t, (s.VerifyToken jw env t).2 = none →
      ∃ claims, s.VerifyToken jw env t = (some claims, none)) := by
  refine ⟨?_, ?_, ?_, fun t h => VerifyToken_nil_error_claims s jw env t h⟩
  · intro he
    simp [AuthMiddleware, he, Context.JSON, Context.Abort]
  · intro t hh
    have hne : c.GetHeader "Authorization" ≠ "" := by
      rw [hh]
      intro h
      have hd := congrArg String.data h
      rw [String.data_append] at hd
      exact absurd (List.append_eq_nil.mp hd).1 (by decide)
    refine AuthMiddleware_of_token s jw env next c t hne ?_
    rw [hh, (HasPrefix_append "Bearer " t).1, (HasPrefix_append "Bearer " t).2]
    rfl
  · intro hne hno
    refine AuthMiddleware_of_token s jw env next c _ hne ?_
    have hp : HasPrefix (c.GetHeader "Authorization") "Bearer " = false := by
      cases hb : HasPrefix (c.GetHeader "Authorization") "Bearer " with
      | false => rfl
      | true =>
        obtain ⟨t, ht⟩ := HasPrefix_split _ _ hb
        exact absurd ht (hno t)
    simp [hp]

/-- C12 at concrete inputs. A request with the header "Bearer " followed by the token
issued to user 7, alice, at instant 100 is admitted at instant 200: the handler that
follows runs on the context that carries her id and name. A request with the header
"Bearer garbage" is refused with 401, and so is one without the header. -/
theorem AuthMiddleware_gates_witness :
    AuthMiddleware demoService demoJwt (demoEnv 200 "u-2") demoDownstream
        (demoContext ("Bearer " ++
          (demoService.generateAccessToken demoJwt (demoEnv 100 "u-1") 7 "alice").1)) =
      some (demoDownstream
        (((demoContext ("Bearer " ++
            (demoService.generateAccessToken demoJwt (demoEnv 100 "u-1") 7 "alice").1)).Set
          "user_id" (Value.int 7)).Set "username" (Value.str "alice"))) ∧
    AuthMiddleware demoService demoJwt (demoEnv 200 "u-2") demoDownstream
        (demoContext "Bearer garbage") =
      some { demoContext "Bearer garbage" with
        written := some { status := 401, body := Body.error "Invalid token" },
        aborted := true } ∧
    AuthMiddleware demoService demoJwt (demoEnv 200 "u-2") demoDownstream (demoContext "") =
      some { demoContext "" with
        written := some { status := 401, body := Body.error "Authorization header required" },
        aborted := true } :=
  ⟨((AuthMiddleware_gates demoService demoJwt (demoEnv 200 "u-2") demoDownstream
        (demoContext ("Bearer " ++
          (demoService.generateAccessToken demoJwt (demoEnv 100 "u-1") 7 "alice").1))).2.1
      (demoService.generateAccessToken demoJwt (demoEnv 100 "u-1") 7 "alice").1 rfl).2 _
      (VerifyToken_generated_ok demoJwt_lawful demoService (demoEnv 100 "u-1")
        (demoEnv 200 "u-2") 7 "alice" (by decide) (by decide)),
   ((AuthMiddleware_gates demoService demoJwt (demoEnv 200 "u-2") demoDownstream
        (demoContext "Bearer garbage")).2.1 "garbage" (by decide)).1 (by decide),
   (AuthMiddleware_gates demoService demoJwt (demoEnv 200 "u-2") demoDownstream
        (demoContext "")).1 (by decide)⟩

/-! ## C13: one user per username -/

/-- A call of Register that returns an error leaves the store as it was. -/
theorem Register_error_store (s : Service) (bc : Bcrypt) (env : Env) (db : Store) (user : User)
    (h : (s.Register bc env db user).1.2 ≠ none) : (s.Register bc env db user).2 = db := by
  unfold Service.Register at h ⊢
  rcases hg : bc.GenerateFromPassword user.PasswordHash DefaultCost env.entropy with ⟨hash, _ | e⟩
  · simp only [hg] at h ⊢
    unfold Store.insertUser at h ⊢
    cases hio : env.dbErr 0 with
    | some e => simp
    | none =>
      by_cases hany : db.users.any (fun u => u.username == user.Username) = true
      · simp [hany]
      · simp [hio, hany] at h
  · simp

/-- A call of Register that returns a nil error found the username free and appended
one row with that username. -/
theorem Register_ok_users (s : Service) (bc : Bcrypt) (env : Env) (db : Store) (user : User)
    (h : (s.Register bc env db user).1.2 = none) :
    (∀ u ∈ db.users, u.username ≠ user.Username) ∧
    ∃ row : UserRow, row.username = user.Username ∧
      (s.Register bc env db user).2.users = db.users ++ [row] := by
  unfold Service.Register at h ⊢
  rcases hg : bc.GenerateFromPassword user.PasswordHash DefaultCost env.entropy with ⟨hash, _ | e⟩
  · simp only [hg] at h ⊢
    unfold Store.insertUser at h ⊢
    cases hio : env.dbErr 0 with
    | some e => simp [hio] at h
    | none =>
      by_cases hany : db.users.any (fun u => u.username == user.Username) = true
      · simp [hio, hany] at h
      · refine ⟨?_, ⟨{ id := env.newID, username := user.Username, password_hash := hash,
                         email := user.Email }, rfl, by simp [hany]⟩⟩
        intro u hu heq
        apply hany
        rw [List.any_eq_true]
        exact ⟨u, hu, by simp [heq]⟩
  · simp [hg] at h

/-- A registration under a username that the users table holds returns an error. -/
theorem Register_taken_error (s : Service) (bc : Bcrypt) (env : Env) (db : Store) (user : User)
    (u : UserRow) (hu : u ∈ db.users) (hname : u.username = user.Username) :
    (s.Register bc env db user).1.2 ≠ none := by
  intro h
  exact (Register_ok_users s bc env db user h).1 u hu hname

/-- The error of that registration is the violation of the unique constraint when
hashing and the driver do not fail. -/
theorem Register_taken_conflict (s : Service) (bc : Bcrypt) (env : Env) (db : Store)
    (user : User) (u : UserRow) (hu : u ∈ db.users) (hname : u.username = user.Username)
    (hhash : (bc.GenerateFromPassword user.PasswordHash DefaultCost env.entropy).2 = none)
    (hio : env.dbErr 0 = none) :
    (s.Register bc env db user).1.2 =
      some (Error.driver "duplicate key value violates unique constraint") := by
  have hany : db.users.any (fun v => v.username == user.Username) = true := by
    rw [List.any_eq_true]
    exact ⟨u, hu, by simp [hname]⟩
  unfold Service.Register
  rcases hg : bc.GenerateFromPassword user.PasswordHash DefaultCost env.entropy with ⟨hash, _ | e⟩
  · simp [Store.insertUser, hio, hany]
  · simp [hg] at hhash

theorem Register_usernames_nodup (s : Service) (bc : Bcrypt) (env : Env) (db : Store)
    (user : User) (h : (db.users.map (fun u => u.username)).Nodup) :
    ((s.Register bc env db user).2.users.map (fun u => u.username)).Nodup := by
  by_cases hok : (s.Register bc env db user).1.2 = none
  · obtain ⟨hfree, row, hrow, husers⟩ := Register_ok_users s bc env db user hok
    rw [husers, List.map_append, List.nodup_append]
    refine ⟨h, by simp, ?_⟩
    intro a ha hb
    simp only [List.map_cons, List.map_nil, List.mem_singleton] at hb
    obtain ⟨u, hu, hua⟩ := List.mem_map.mp ha
    exact hfree u hu (by rw [hua, hb, hrow])
  · rw [Register_error_store s bc env db user hok]
    exact h

theorem Reachable_usernames_nodup {s : Service} {bc : Bcrypt} {db : Store}
    (h : Reachable s bc db) : (db.users.map (fun u => u.username)).Nodup := by
  induction h with
  | init db h0 => simp [h0]
  | register db env user _ ih => exact Register_usernames_nodup s bc env db user ih

theorem filter_username_length_le_one (users : List UserRow) (name : String)
    (h : (users.map (fun u => u.username)).Nodup) :
    (users.filter (fun u => u.username == name)).length ≤ 1 := by
  induction users with
  | nil => simp
  | cons a l ih =>
    rw [List.map_cons, List.nodup_cons] at h
    by_cases ha : a.username = name
    · have hnone : l.filter (fun u => u.username == name) = [] := by
        rw [List.filter_eq_nil_iff]
        intro u hu hun
        apply h.1
        rw [List.mem_map]
        exact ⟨u, hu, by rw [ha]; simpa using hun⟩
      simp [List.filter_cons, ha, hnone]
    · simp [List.filter_cons, ha, ih h.2]

/-- C13 (the claim as stated fails). Two registrations with the same username, carol,
on a store without users: when the password has 73 bytes, hashing fails in both and
neither succeeds; and when the driver fails in both, neither succeeds. -/
theorem Register_twice_neither_succeeds :
    ((demoService.Register demoBcrypt (demoEnv 0 "u-1") demoEmptyStore demoLongUser).1.2 ≠ none ∧
      (demoService.Register demoBcrypt (demoEnv 1 "u-2")
        (demoService.Register demoBcrypt (demoEnv 0 "u-1") demoEmptyStore demoLongUser).2
        demoLongUser).1.2 ≠ none) ∧
    ((demoService.Register demoBcrypt demoDownEnv demoEmptyStore demoCarol).1.2 ≠ none ∧
      (demoService.Register demoBcrypt demoDownEnv
        (demoService.Register demoBcrypt demoDownEnv demoEmptyStore demoCarol).2
        demoCarol).1.2 ≠ none) := by
  decide

/-- C13 (amended). In every store that calls of Register reach from a store without
users, at most one user has any given username. Of two registrations with the same
username, one after the other, at most one succeeds; when the first succeeds, the second
returns an error (the violation of the unique constraint, when its hashing and the
driver do not fail) and leaves the users table unchanged; and the first succeeds when
the username is not taken and neither its hashing nor the driver fails. -/
theorem Register_username_unique (s : Service) (bc : Bcrypt) (db : Store)
    (hreach : Reachable s bc db) (env1 env2 : Env) (user1 user2 : User)
    (hsame : user2.Username = user1.Username) :
    (∀ name, (db.users.filter (fun u => u.username == name)).length ≤ 1) ∧
    ¬ ((s.Register bc env1 db user1).1.2 = none ∧
        (s.Register bc env2 (s.Register bc env1 db user1).2 user2).1.2 = none) ∧
    ((s.Register bc env1 db user1).1.2 = none →
      (s.Register bc env2 (s.Register bc env1 db user1).2 user2).1.2 ≠ none ∧
      (s.Register bc env2 (s.Register bc env1 db user1).2 user2).2.users =
        (s.Register bc env1 db user1).2.users ∧
      ((bc.GenerateFromPassword user2.PasswordHash DefaultCost env2.entropy).2 = none →
        env2.dbErr 0 = none →
        (s.Register bc env2 (s.Register bc env1 db user1).2 user2).1.2 =
          some (Error.driver "duplicate key value violates unique constraint"))) ∧
    ((∀ u ∈ db.users, u.username ≠ user1.Username) →
      (bc.GenerateFromPassword user1.PasswordHash DefaultCost env1.entropy).2 = none →
      env1.dbErr 0 = none →
      (s.Register bc env1 db user1).1.2 = none) := by
  have second : (s.Register bc env1 db user1).1.2 = none →
      ∃ u ∈ (s.Register bc env1 db user1).2.users, u.username = user2.Username := by
    intro h1
    obtain ⟨_, row, hrow, husers⟩ := Register_ok_users s bc env1 db user1 h1
    exact ⟨row, by rw [husers]; simp, by rw [hrow, hsame]⟩
  refine ⟨fun name => filter_username_length_le_one db.users name
    (Reachable_usernames_nodup hreach), ?_, ?_, ?_⟩
  · rintro ⟨h1, h2⟩
    obtain ⟨u, hu, hname⟩ := second h1
    exact Register_taken_error s bc env2 _ user2 u hu hname h2
  · intro h1
    obtain ⟨u, hu, hname⟩ := second h1
    have herr := Register_taken_error s bc env2 _ user2 u hu hname
    refine ⟨herr, ?_, ?_⟩
    · rw [Register_error_store s bc env2 _ user2 herr]
    · intro hhash hio
      exact Register_taken_conflict s bc env2 _ user2 u hu hname hhash hio
  · intro hfree hhash hio
    rw [Register_ok s bc env1 db user1 hfree hhash hio]

/-- C13 (amended) at a concrete input: carol is registered on a store without users,
and a second registration of carol is then refused. -/
theorem Register_username_unique_witness :
    (demoService.Register demoBcrypt (demoEnv 1 "u-2")
        (demoService.Register demoBcrypt (demoEnv 0 "u-1") demoEmptyStore demoCarol).2
        demoCarol).1.2 ≠ none ∧
    (demoService.Register demoBcrypt (demoEnv 1 "u-2")
        (demoService.Register demoBcrypt (demoEnv 0 "u-1") demoEmptyStore demoCarol).2
        demoCarol).2.users =
      (demoService.Register demoBcrypt (demoEnv 0 "u-1") demoEmptyStore demoCarol).2.users ∧
    ((demoBcrypt.GenerateFromPassword demoCarol.PasswordHash DefaultCost
          (demoEnv 1 "u-2").entropy).2 = none →
      (demoEnv 1 "u-2").dbErr 0 = none →
      (demoService.Register demoBcrypt (demoEnv 1 "u-2")
        (demoService.Register demoBcrypt (demoEnv 0 "u-1") demoEmptyStore demoCarol).2
        demoCarol).1.2 =
        some (Error.driver "duplicate key value violates unique constraint")) :=
  (Register_username_unique demoService demoBcrypt demoEmptyStore
    (Reachable.init demoEmptyStore rfl) (demoEnv 0 "u-1") (demoEnv 1 "u-2") demoCarol demoCarol
    rfl).2.2.1 (by decide)

/-! ## C14: store failures during login -/

/-- An error at the user lookup is the error Login returns. -/
theorem Login_lookup_failure (s : Service) (bc : Bcrypt) (jw : Jwt) (env : Env) (db : Store)
    (username password : String) (e : Error) (h : env.dbErr 0 = some e) :
    s.Login bc jw env db username password = (("", "", some e), db) := by
  simp [Service.Login, Store.queryUserByUsername, h]

theorem insertRefreshToken_error_store (db : Store) (ioErr : Option Error)
    (row : RefreshTokenRow) (e : Error) (h : (db.insertRefreshToken ioErr row).1 = some e) :
    db.insertRefreshToken ioErr row = (some e, db) := by
  unfold Store.insertRefreshToken at h ⊢
  cases ioErr with
  | some e' => simp at h; simp [h]
  | none =>
    by_cases hany : db.refresh_tokens.any (fun r => r.token == row.token) = true
    · simp [hany] at h; simp [hany, h]
    · simp [hany] at h

/-- An error at the insert of the refresh token is the error Login returns. -/
theorem Login_insert_failure {jw : Jwt} (hjw : jw.Lawful) (s : Service) (bc : Bcrypt)
    (env : Env) (db : Store) (username password : String) (user : UserRow) (e : Error)
    (hlookup : db.queryUserByUsername (env.dbErr 0) username = Except.ok user)
    (hacc : bc.CompareHashAndPassword user.password_hash password = none)
    (h : (db.insertRefreshToken (env.dbErr 1)
      { user_id := user.id, token := env.uuid, expires_at := env.now + 7 * 24 * Hour }).1 =
        some e) :
    s.Login bc jw env db username password = (("", "", some e), db) := by
  have ha := generateAccessToken_ok hjw s env user.id user.username
  have hins := insertRefreshToken_error_store db (env.dbErr 1) _ e h
  rcases hg : s.generateAccessToken jw env user.id user.username with ⟨a, _ | ea⟩
  · simp only [Service.Login, hlookup, hacc, hg, Service.generateRefreshToken, hins]
  · simp [hg] at ha

/-- C14 (the claim as stated fails). On the demo store alice logs in with her password
while every statement fails at the driver with "connection refused": LoginHandler
answers 401 "Invalid credentials", the very response it gives, the database working, to
the unknown username "bob" and to alice with a wrong password. -/
theorem LoginHandler_store_failure_same_as_bad_credentials :
    (demoService.Login demoBcrypt demoJwt demoDownEnv demoStore "alice" "s3cret").1.2.2 =
      some (Error.driver "connection refused") ∧
    (LoginHandler demoService demoBcrypt demoJwt demoDownEnv demoStore
        (some ("alice", "s3cret"))).1 =
      { status := 401, body := Body.error "Invalid credentials" } ∧
    (LoginHandler demoService demoBcrypt demoJwt (demoEnv 0 "u-1") demoStore
        (some ("bob", "s3cret"))).1 =
      { status := 401, body := Body.error "Invalid credentials" } ∧
    (LoginHandler demoService demoBcrypt demoJwt (demoEnv 0 "u-1") demoStore
        (some ("alice", "wrong"))).1 =
      { status := 401, body := Body.error "Invalid credentials" } := by
  decide

/-- C14 (amended). For every login request (non-empty username and password) during
which the store fails, be it at the user lookup with any error of the driver, or, the
user found and the password accepted, at the insert of the refresh token with any error
(of the driver or of the unique constraint): Login returns that error,
and LoginHandler surfaces it as 401 "Invalid credentials", the response it gives for
every error of Login, an unknown username and a wrong password included. The store is
left as it was. -/
theorem LoginHandler_store_failure_unauthorized (jw : Jwt) (hjw : jw.Lawful) (s : Service)
    (bc : Bcrypt) (env : Env) (db : Store) (username password : String) (e : Error)
    (hu : username ≠ "") (hp : password ≠ "")
    (hfail : env.dbErr 0 = some e ∨
      ∃ user, db.queryUserByUsername (env.dbErr 0) username = Except.ok user ∧
        bc.CompareHashAndPassword user.password_hash password = none ∧
        (db.insertRefreshToken (env.dbErr 1)
          { user_id := user.id, token := env.uuid,
            expires_at := env.now + 7 * 24 * Hour }).1 = some e) :
    (s.Login bc jw env db username password).1.2.2 = some e ∧
    LoginHandler s bc jw env db (some (username, password)) =
      ({ status := StatusUnauthorized, body := Body.error "Invalid credentials" }, db) := by
  have hl : s.Login bc jw env db username password = (("", "", some e), db) := by
    rcases hfail with h | ⟨user, hlookup, hacc, h⟩
    · exact Login_lookup_failure s bc jw env db username password e h
    · exact Login_insert_failure hjw s bc env db username password user e hlookup hacc h
  refine ⟨by rw [hl], ?_⟩
  simp [LoginHandler, requiredFailures, hu, hp, hl]

/-- C14 (amended) at a concrete input: alice logs in on the demo store while the
driver refuses every statement. -/
theorem LoginHandler_store_failure_unauthorized_witness :
    (demoService.Login demoBcrypt demoJwt demoDownEnv demoStore "alice" "s3cret").1.2.2 =
      some (Error.driver "connection refused") ∧
    LoginHandler demoService demoBcrypt demoJwt demoDownEnv demoStore
        (some ("alice", "s3cret")) =
      ({ status := StatusUnauthorized, body := Body.error "Invalid credentials" }, demoStore) :=
  LoginHandler_store_failure_unauthorized demoJwt demoJwt_lawful demoService demoBcrypt
    demoDownEnv demoStore "alice" "s3cret" (Error.driver "connection refused")
    (by decide) (by decide) (Or.inl rfl)

/-! ## Lemmas on the task statements -/

/-- Rewriting rows of user `u` only, without touching `user_id`, leaves the rows of
the other users as they were. -/
theorem map_hit_filter_other (l : List TaskRow) (hit : TaskRow → Bool) (f : TaskRow → TaskRow)
    (u : Int) (hhit : ∀ r, hit r = true → r.user_id = u) (hf : ∀ r, (f r).user_id = r.user_id) :
    (l.map (fun r => if hit r = true then f r else r)).filter (fun r => r.user_id != u) =
      l.filter (fun r => r.user_id != u) := by
  induction l with
  | nil => rfl
  | cons a l ih =>
    by_cases ha : hit a = true
    · have hu : a.user_id = u := hhit a ha
      have hu' : (f a).user_id = u := by rw [hf a, hu]
      simp [List.filter_cons, ha, hu, hu', ih]
    · simp [List.filter_cons, ha, ih]

/-- Removing rows of user `u` only leaves the rows of the other users as they were. -/
theorem filter_hit_filter_other (l : List TaskRow) (hit : TaskRow → Bool) (u : Int)
    (hhit : ∀ r, hit r = true → r.user_id = u) :
    (l.filter (fun r => !(hit r))).filter (fun r => r.user_id != u) =
      l.filter (fun r => r.user_id != u) := by
  induction l with
  | nil => rfl
  | cons a l ih =>
    by_cases ha : hit a = true
    · have hu : a.user_id = u := hhit a ha
      simp [List.filter_cons, ha, hu, ih]
    · by_cases hu : a.user_id = u
      · simp [List.filter_cons, ha, hu, ih]
      · simp [List.filter_cons, ha, hu, ih]

/-- A statement that hits no row changes no row. -/
theorem map_hit_none (l : List TaskRow) (hit : TaskRow → Bool) (f : TaskRow → TaskRow)
    (hnone : ∀ r ∈ l, hit r = false) :
    l.map (fun r => if hit r = true then f r else r) = l := by
  induction l with
  | nil => rfl
  | cons a l ih =>
    have ha : hit a = false := hnone a (List.mem_cons_self a l)
    simp [ha, ih (fun r hr => hnone r (List.mem_cons_of_mem a hr))]

theorem filter_hit_none (l : List TaskRow) (hit : TaskRow → Bool)
    (hnone : ∀ r ∈ l, hit r = false) :
    l.filter (fun r => !(hit r)) = l := by
  rw [List.filter_eq_self]
  intro r hr
  simp [hnone r hr]

theorem filter_hit_length_zero (l : List TaskRow) (hit : TaskRow → Bool)
    (hnone : ∀ r ∈ l, hit r = false) : (l.filter hit).length = 0 := by
  rw [List.length_eq_zero, List.filter_eq_nil_iff]
  intro r hr
  simp [hnone r hr]

theorem hit_owner (id u : Int) (r : TaskRow) (h : (r.id == id && r.user_id == u) = true) :
    r.user_id = u := by
  simp at h
  exact h.2

theorem hit_foreign (l : List TaskRow) (id u : Int)
    (hforeign : ∀ r ∈ l, r.id = id → r.user_id ≠ u) :
    ∀ r ∈ l, (r.id == id && r.user_id == u) = false := by
  intro r hr
  by_cases hid : r.id = id
  · simp [hid, hforeign r hr hid]
  · simp [hid]

theorem GetTasks_owner (s : Tasks.Service) (env : TaskEnv) (db : Store) (userID : Int) :
    (∀ t ∈ (s.GetTasks env db userID).1.1, t.UserID = userID) ∧
    (s.GetTasks env db userID).2 = db := by
  unfold Tasks.Service.GetTasks
  cases hio : env.ioErr with
  | some e => simp
  | none =>
    refine ⟨?_, rfl⟩
    intro t ht
    simp only [List.mem_filterMap, List.mem_filter] at ht
    obtain ⟨r, ⟨_, hr⟩, hscan⟩ := ht
    cases hs : env.scanErr r with
    | some e => simp [hs] at hscan
    | none =>
      simp [hs] at hscan
      rw [← hscan]
      simpa [TaskRow.scan] using hr

theorem GetTask_owner (s : Tasks.Service) (env : TaskEnv) (db : Store) (taskID : String)
    (userID : Int) (t : Task) (h : (s.GetTask env db taskID userID).1.1 = some t) :
    t.UserID = userID ∧ ∃ r ∈ db.tasks, r.scan = t ∧ r.user_id = userID := by
  unfold Tasks.Service.GetTask at h
  cases hio : env.ioErr with
  | some e => simp [hio] at h
  | none =>
    cases hp : env.parseID taskID with
    | none => simp [hio, hp] at h
    | some id =>
      cases hf : db.tasks.find? (fun r => r.id == id && r.user_id == userID) with
      | none => simp [hio, hp, hf] at h
      | some r =>
        have hmem := List.mem_of_find?_eq_some hf
        have hhit := List.find?_some hf
        have hown := hit_owner id userID r hhit
        cases hs : env.scanErr r with
        | some e => simp [hio, hp, hf, hs] at h
        | none =>
          simp [hio, hp, hf, hs] at h
          exact ⟨by rw [← h]; exact hown, r, hmem, h, hown⟩

theorem UpdateTask_other_users (s : Tasks.Service) (env : TaskEnv) (db : Store) (task : Task)
    (taskID : String) (u : Int) :
    (s.UpdateTask env db task taskID u).2.tasks.filter (fun r => r.user_id != u) =
      db.tasks.filter (fun r => r.user_id != u) := by
  unfold Tasks.Service.UpdateTask
  cases hio : env.ioErr with
  | some e => rfl
  | none =>
    cases hp : env.parseID taskID with
    | none => rfl
    | some id =>
      have hm := map_hit_filter_other db.tasks (fun r => r.id == id && r.user_id == u)
        (fun r => { r with title := task.Title, description := task.Description,
                           status := task.Status, priority := task.Priority,
                           due_date := task.DueDate })
        u (fun r h => hit_owner id u r h) (fun _ => rfl)
      simp only
      split <;> exact hm

theorem DeleteTask_other_users (s : Tasks.Service) (env : TaskEnv) (db : Store)
    (taskID : String) (u : Int) :
    (s.DeleteTask env db taskID u).2.tasks.filter (fun r => r.user_id != u) =
      db.tasks.filter (fun r => r.user_id != u) := by
  unfold Tasks.Service.DeleteTask
  cases hio : env.ioErr with
  | some e => rfl
  | none =>
    cases hp : env.parseID taskID with
    | none => rfl
    | some id =>
      have hm := filter_hit_filter_other db.tasks (fun r => r.id == id && r.user_id == u) u
        (fun r h => hit_owner id u r h)
      simp only
      split <;> exact hm

theorem UpdateTask_foreign (s : Tasks.Service) (env : TaskEnv) (db : Store) (task : Task)
    (taskID : String) (u id : Int) (hio : env.ioErr = none) (hp : env.parseID taskID = some id)
    (hforeign : ∀ r ∈ db.tasks, r.id = id → r.user_id ≠ u) :
    s.UpdateTask env db task taskID u = (some Error.ErrNoRows, db) := by
  have hnone := hit_foreign db.tasks id u hforeign
  have hmap := map_hit_none db.tasks (fun r => r.id == id && r.user_id == u)
    (fun r => { r with title := task.Title, description := task.Description,
                       status := task.Status, priority := task.Priority,
                       due_date := task.DueDate }) hnone
  have hlen := filter_hit_length_zero db.tasks (fun r => r.id == id && r.user_id == u) hnone
  simp only [Tasks.Service.UpdateTask, hio, hp]
  rw [hmap, hlen]
  rfl

theorem DeleteTask_foreign (s : Tasks.Service) (env : TaskEnv) (db : Store)
    (taskID : String) (u id : Int) (hio : env.ioErr = none) (hp : env.parseID taskID = some id)
    (hforeign : ∀ r ∈ db.tasks, r.id = id → r.user_id ≠ u) :
    s.DeleteTask env db taskID u = (some Error.ErrNoRows, db) := by
  have hnone := hit_foreign db.tasks id u hforeign
  have hfil := filter_hit_none db.tasks (fun r => r.id == id && r.user_id == u) hnone
  have hlen := filter_hit_length_zero db.tasks (fun r => r.id == id && r.user_id == u) hnone
  simp only [Tasks.Service.DeleteTask, hio, hp]
  rw [hfil, hlen]
  rfl

/-! ## C15: tasks of different users -/

/-- C15. For every store and every user id `u`: GetTasks(u) returns only tasks whose
UserID is `u`; GetTask(id, u) returns a task only if its UserID is `u`; after
UpdateTask and after DeleteTask called with `u`, the rows of the tasks table whose
user_id differs from `u` are the rows that were there before, in the same order; when
every row with the given task id belongs to another user, both return `sql.ErrNoRows`
and leave the store as it was; and CreateTaskHandler, the body valid and the statement
executed, stores `u`, the `user_id` of the request context, as the owner of the new
row, whatever UserID the body carries. -/
theorem task_isolation (s : Tasks.Service) (env : TaskEnv) (db : Store) (u : Int)
    (taskID : String) (task : Task) (c : Context) :
    (∀ t ∈ (s.GetTasks env db u).1.1, t.UserID = u) ∧
    (∀ t, (s.GetTask env db taskID u).1.1 = some t → t.UserID = u) ∧
    ((s.UpdateTask env db task taskID u).2.tasks.filter (fun r => r.user_id != u) =
      db.tasks.filter (fun r => r.user_id != u)) ∧
    ((s.DeleteTask env db taskID u).2.tasks.filter (fun r => r.user_id != u) =
      db.tasks.filter (fun r => r.user_id != u)) ∧
    (∀ id, env.ioErr = none → env.parseID taskID = some id →
      (∀ r ∈ db.tasks, r.id = id → r.user_id ≠ u) →
      s.UpdateTask env db task taskID u = (some Error.ErrNoRows, db) ∧
      s.DeleteTask env db taskID u = (some Error.ErrNoRows, db)) ∧
    (c.Get "user_id" = some (Value.int u) → validateTask task = [] → env.ioErr = none →
      CreateTaskHandler s env db c (some task) =
        some ({ status := StatusCreated, body := Body.taskCreated env.newID },
          { db with tasks := db.tasks ++
              [{ id := env.newID, user_id := u, title := task.Title,
                 description := task.Description, status := task.Status,
                 priority := task.Priority, due_date := task.DueDate,
                 created_at := env.createdAt }] })) := by
  refine ⟨(GetTasks_owner s env db u).1,
    fun t ht => (GetTask_owner s env db taskID u t ht).1,
    UpdateTask_other_users s env db task taskID u,
    DeleteTask_other_users s env db taskID u, ?_, ?_⟩
  · intro id hio hp hforeign
    exact ⟨UpdateTask_foreign s env db task taskID u id hio hp hforeign,
      DeleteTask_foreign s env db taskID u id hio hp hforeign⟩
  · intro hc hv hio
    simp [CreateTaskHandler, hv, hc, Tasks.Service.CreateTask, hio]

/-- C15 at a concrete input: on the demo store user 1 updates and deletes task 2, which
belongs to user 2, and creates a task whose body names user 2 as the owner. -/
theorem task_isolation_witness :
    (({} : Tasks.Service).UpdateTask demoTaskEnv demoTaskStore demoTask "2" 1 =
        (some Error.ErrNoRows, demoTaskStore) ∧
      ({} : Tasks.Service).DeleteTask demoTaskEnv demoTaskStore "2" 1 =
        (some Error.ErrNoRows, demoTaskStore)) ∧
    CreateTaskHandler {} demoTaskEnv demoTaskStore
        ((demoContext "").Set "user_id" (Value.int 1)) (some demoTask) =
      some ({ status := StatusCreated, body := Body.taskCreated demoTaskEnv.newID },
        { demoTaskStore with tasks := demoTaskStore.tasks ++
            [{ id := demoTaskEnv.newID, user_id := 1, title := demoTask.Title,
               description := demoTask.Description, status := demoTask.Status,
               priority := demoTask.Priority, due_date := demoTask.DueDate,
               created_at := demoTaskEnv.createdAt }] }) :=
  ⟨(task_isolation {} demoTaskEnv demoTaskStore 1 "2" demoTask
      ((demoContext "").Set "user_id" (Value.int 1))).2.2.2.2.1 2 rfl rfl (by decide),
   (task_isolation {} demoTaskEnv demoTaskStore 1 "2" demoTask
      ((demoContext "").Set "user_id" (Value.int 1))).2.2.2.2.2 rfl (by decide) rfl⟩

end TaskTracker
